import Mathlib

/-!
Verification of the What-If Explorer SCM simulation core.

This file gives a shallow embedding, in Lean, of the Monte-Carlo propagation
engine of the repository (src/lib/distributions.ts, src/lib/inference.ts,
src/lib/sensitivity.ts) and proves properties of the embedded definitions.

Embedding conventions:
* JS numbers are modelled as real numbers (`ℝ`).  Consequently the IEEE special
  values `NaN` and `±∞` have no inhabitant: `jsIsNaN` is constantly `false` and
  `jsIsFinite` constantly `true` on `ℝ`.  A separate extended value domain
  `FVal` (further below) is used where a claim is specifically about the
  special values.
* `Math.random()` is modelled as reading successive values of a fixed stream
  `g : ℕ → ℝ` through an explicit cursor `k : ℕ` which every draw advances.
  All sampling functions take and return the cursor, mirroring the exact order
  in which the JS code consumes the global RNG.
* JS `x ?? d` becomes `Option.getD`, JS `x || d` becomes an explicit test
  against the falsy value, and TS optional object fields become `Option`.
* Loops with an explicit iteration budget in the source keep that budget as
  structural fuel.  The one unbounded loop (`randomPoisson`'s small-λ
  do-while, which almost surely terminates for genuine random streams) is
  given a large fuel and returns the current count on exhaustion.
* `console.log` calls, `try/catch` blocks (no embedded operation can throw)
  and unused local bindings for logging are dropped.
-/

namespace WhatIf

/-- RNG stream: the values successively returned by `Math.random()`. -/
abbrev Rng := Nat → ℝ

/-- One `Math.random()` draw: read the stream at the cursor, advance it. -/
def rand (g : Rng) (k : Nat) : ℝ × Nat := (g k, k + 1)

/-- JS `isNaN` on the real-number embedding: a real value is never NaN. -/
def jsIsNaN (_x : ℝ) : Bool := false

/-- JS `isFinite` on the real-number embedding: a real value is always finite. -/
def jsIsFinite (_x : ℝ) : Bool := true

/-! ## Data model (src/types/causal.ts)

Numeric fields that the engine reads through `??` are modelled as `Option ℝ`
so that every defaulting site of the source is represented. -/

/-- Tagged union of distribution variants.  `other` stands for an unknown
`type` tag, which the sampling code handles in its `default` branch. -/
inductive Distribution
  | binary (p : Option ℝ)
  | categorical (probs : Option (List ℝ))
  | continuous (dist : String) (params : Option (List ℝ))
  | bounded (min max mode : Option ℝ)
  | count (lambda : Option ℝ)
  | rate (alpha beta : Option ℝ)
  | other

/-- Tagged union of edge effect variants. -/
inductive EffectFunction
  | linear (coefficient intercept saturation : Option ℝ)
  | multiplicative (factor baseline : Option ℝ)
  | threshold (cutoff below above smoothness : Option ℝ)
  | logistic (coefficient threshold : Option ℝ)

/-- Per-node stabilization policy. -/
structure CircuitBreakers where
  minValue : Option ℝ
  maxValue : Option ℝ
  priorWeight : Option ℝ
  maxStdDevRatio : Option ℝ

/-- A vertex of the causal model (visual-only fields are dropped). -/
structure CausalNode where
  id : String
  label : String
  type : String
  units : Option String
  distribution : Distribution
  circuitBreakers : Option CircuitBreakers

/-- A directed edge of the causal model (visual-only fields are dropped). -/
structure CausalEdge where
  source : String
  target : String
  effect : EffectFunction

/-- The model consumed by the engine (pass-through metadata dropped except
the title, which the sensitivity report copies). -/
structure CausalModel where
  title : String
  nodes : List CausalNode
  edges : List CausalEdge

/-- The five percentiles reported with a KDE curve. -/
structure Percentiles where
  p5 : ℝ
  p25 : ℝ
  p50 : ℝ
  p75 : ℝ
  p95 : ℝ

/-- A renderable distribution: KDE curve points plus summary statistics
(the constant `type: 'kde'` tag is dropped). -/
structure RenderableDistribution where
  points : List (ℝ × ℝ)
  mean : ℝ
  stdDev : ℝ
  percentiles : Percentiles

/-! ## Distribution primitives (src/lib/distributions.ts) -/

/-- Box-Muller transform (`randomNormal`): consumes two draws. -/
noncomputable def randomNormal (mean stdDev : ℝ) (g : Rng) (k : Nat) : ℝ × Nat :=
  let u1 := g k
  let u2 := g (k + 1)
  let z := Real.sqrt (-2 * Real.log u1) * Real.cos (2 * Real.pi * u2)
  (mean + stdDev * z, k + 2)

/-- `randomLognormal`: exp of a normal draw. -/
noncomputable def randomLognormal (mu sigma : ℝ) (g : Rng) (k : Nat) : ℝ × Nat :=
  let (normal, k1) := randomNormal mu sigma g k
  (Real.exp normal, k1)

/-- Rejection loop of `randomBetaSafe` (Johnk), at most 100 iterations, two
draws per iteration; on exhaustion the analytic mean `a/(a+b)` is returned. -/
noncomputable def randomBetaSafeLoop (a b : ℝ) (g : Rng) : Nat → Nat → ℝ × Nat
  | k, 0 => (a / (a + b), k)
  | k, fuel + 1 =>
    let u1 := g k
    let u2 := g (k + 1)
    let x := u1 ^ (1 / a)
    let y := u2 ^ (1 / b)
    if x + y ≤ 1 ∧ x + y > 0 then (x / (x + y), k + 2)
    else randomBetaSafeLoop a b g (k + 2) fuel

/-- `randomBetaSafe`: parameters clamped to at least 0.1, then the bounded
Johnk rejection loop. -/
noncomputable def randomBetaSafe (alpha beta : ℝ) (g : Rng) (k : Nat) : ℝ × Nat :=
  let a := Max.max 0.1 alpha
  let b := Max.max 0.1 beta
  randomBetaSafeLoop a b g k 100

/-- Inner do-while of `randomGammaSafe`: draw `x ~ N(0,1)`, set `v = 1 + c·x`,
repeat while `v ≤ 0` and fewer than 10 attempts were made. -/
noncomputable def randomGammaInner (c : ℝ) (g : Rng) : Nat → Nat → ℝ × ℝ × Nat
  | k, 0 => (0, 0, k)
  | k, fuel + 1 =>
    let (x, k1) := randomNormal 0 1 g k
    let v := 1 + c * x
    if v ≤ 0 ∧ 0 < fuel then randomGammaInner c g k1 fuel
    else (x, v, k1)

/-- Outer rejection loop of `randomGammaSafe` (Marsaglia-Tsang), at most 100
iterations; on exhaustion the analytic mean `s/r` is returned. -/
noncomputable def randomGammaLoop (s d c r : ℝ) (g : Rng) : Nat → Nat → ℝ × Nat
  | k, 0 => (s / r, k)
  | k, fuel + 1 =>
    let (x, v0, k1) := randomGammaInner c g k 10
    if v0 ≤ 0 then randomGammaLoop s d c r g k1 fuel
    else
      let v := v0 * v0 * v0
      let u := g k1
      let k2 := k1 + 1
      if u < 1 - 0.0331 * (x * x) * (x * x) then (d * v / r, k2)
      else if Real.log u < 0.5 * x * x + d * (1 - v + Real.log v) then (d * v / r, k2)
      else randomGammaLoop s d c r g k2 fuel

/-- Body of `randomGammaSafe` for shape ≥ 1. -/
noncomputable def randomGammaSafeCore (s r : ℝ) (g : Rng) (k : Nat) : ℝ × Nat :=
  let d := s - 1 / 3
  let c := 1 / Real.sqrt (9 * d)
  randomGammaLoop s d c r g k 100

/-- `randomGammaSafe`: clamp parameters to at least 0.1; for shape < 1 the
source recurses once with shape + 1 ≥ 1.1 (which takes the non-recursive
branch, embedded here as `randomGammaSafeCore`) and boosts by `u^(1/s)`. -/
noncomputable def randomGammaSafe (shape rate : ℝ) (g : Rng) (k : Nat) : ℝ × Nat :=
  let s := Max.max 0.1 shape
  let r := Max.max 0.1 rate
  if s < 1 then
    let (gres, k1) := randomGammaSafeCore (s + 1) r g k
    let u := g k1
    (gres * u ^ (1 / s), k1 + 1)
  else randomGammaSafeCore s r g k

/-- Small-λ do-while of `randomPoisson`: one draw per iteration, returning the
number of completed iterations once the running product drops to `L`.  The
source loop is unbounded; fuel exhaustion returns the current count. -/
noncomputable def randomPoissonLoop (L : ℝ) (g : Rng) : Nat → ℝ → Nat → Nat → ℝ × Nat
  | k, _p, iters, 0 => ((iters : ℝ), k)
  | k, p, iters, fuel + 1 =>
    let p1 := p * g k
    if p1 > L then randomPoissonLoop L g (k + 1) p1 (iters + 1) fuel
    else ((iters : ℝ), k + 1)

/-- `randomPoisson`: direct method for λ < 30, rounded normal approximation
(floored at 0) otherwise. -/
noncomputable def randomPoisson (lambda : ℝ) (g : Rng) (k : Nat) : ℝ × Nat :=
  if lambda < 30 then
    randomPoissonLoop (Real.exp (-lambda)) g k 1 0 1000000
  else
    let (z, k1) := randomNormal lambda (Real.sqrt lambda) g k
    (((Max.max 0 (round z) : ℤ) : ℝ), k1)

/-- `randomPERTSafe`: PERT reparameterized as a clamped Beta, scaled to
`[min, max]`; degenerate ranges return `min`. -/
noncomputable def randomPERTSafe (min max mode : ℝ) (g : Rng) (k : Nat) : ℝ × Nat :=
  if max ≤ min then (min, k)
  else
    let range := max - min
    let clampedMode := Max.max min (Min.min max mode)
    let mu := (min + 4 * clampedMode + max) / 6
    let alpha := Max.max 0.5 (1 + 4 * (mu - min) / range)
    let beta := Max.max 0.5 (1 + 4 * (max - mu) / range)
    let (betaSample, k1) := randomBetaSafe alpha beta g k
    (min + betaSample * range, k1)

/-- Draw `n` values in index order with a single-value sampler, threading the
RNG cursor (the `for (let i = 0; i < n; i++)` fill loops of the source). -/
noncomputable def sampleN (f : Rng → Nat → ℝ × Nat) (g : Rng) : Nat → Nat → List ℝ × Nat
  | k, 0 => ([], k)
  | k, n + 1 =>
    let (v, k1) := f g k
    let (rest, k2) := sampleN f g k1 n
    (v :: rest, k2)

/-- Running cumulative sums of a probability list (`cumProbs`). -/
def cumSums (ps : List ℝ) : List ℝ := (ps.scanl (· + ·) 0).tail

/-- JS `Array.prototype.findIndex`: first index satisfying the predicate,
`-1` when there is none. -/
noncomputable def jsFindIndex (p : ℝ → Bool) (l : List ℝ) : ℝ :=
  match l.findIdx? p with
  | some i => (i : ℝ)
  | none => -1

/-- `sampleFromDistribution(dist, n)`: n draws from a parameterized
distribution, matching the source case by case (the zero-filled fallback
array shows as `List.replicate n 0` for the empty-categorical case). -/
noncomputable def sampleFromDistribution (dist : Distribution) (n : Nat) (g : Rng) (k : Nat) :
    List ℝ × Nat :=
  match dist with
  | .binary p =>
    let pv := p.getD 0.5
    sampleN (fun g k => ((if g k < pv then 1 else 0), k + 1)) g k n
  | .categorical probs =>
    match probs with
    | some ps =>
      if 0 < ps.length then
        let cumProbs := cumSums ps
        sampleN (fun g k =>
          (jsFindIndex (fun cp => decide (g k ≤ cp)) cumProbs, k + 1)) g k n
      else (List.replicate n 0, k)
    | none => (List.replicate n 0, k)
  | .continuous cdist params =>
    let mean := (params.getD []).getD 0 0
    let std := Max.max ((params.getD []).getD 1 1) 0.01
    let distType := if cdist = "" then "normal" else cdist
    if distType = "normal" then sampleN (randomNormal mean std) g k n
    else if distType = "lognormal" then sampleN (randomLognormal mean std) g k n
    else if distType = "beta" then sampleN (randomBetaSafe mean std) g k n
    else if distType = "gamma" then sampleN (randomGammaSafe mean std) g k n
    else sampleN (randomNormal mean std) g k n
  | .bounded mn mx md =>
    let lo := mn.getD 0
    let hi := mx.getD 100
    let mode := md.getD ((lo + hi) / 2)
    sampleN (randomPERTSafe lo hi mode) g k n
  | .count lambda =>
    let lam := Max.max (lambda.getD 1) 0.1
    sampleN (randomPoisson lam) g k n
  | .rate alpha beta =>
    let a := Max.max (alpha.getD 1) 0.1
    let b := Max.max (beta.getD 1) 0.1
    sampleN (randomBetaSafe a b) g k n
  | .other => sampleN (randomNormal 0 1) g k n

/-- `expectedValue(dist)`: the analytic mean, per variant, with the source's
defaulting and zero-guards. -/
noncomputable def expectedValue (dist : Distribution) : ℝ :=
  match dist with
  | .binary p => p.getD 0.5
  | .categorical probs =>
    match probs with
    | some ps =>
      if ps.length = 0 then 0
      else (ps.enum.map (fun pi => pi.2 * (pi.1 : ℝ))).sum
    | none => 0
  | .continuous cdist params =>
    let ps := params.getD [0, 1]
    let p0 := ps.getD 0 0
    let p1 := ps.getD 1 1
    if cdist = "normal" then p0
    else if cdist = "lognormal" then Real.exp (p0 + p1 ^ 2 / 2)
    else if cdist = "beta" then p0 / (if p0 + p1 = 0 then 1 else p0 + p1)
    else if cdist = "gamma" then p0 / (if p1 = 0 then 1 else p1)
    else p0
  | .bounded mn mx md =>
    let lo := mn.getD 0
    let hi := mx.getD 100
    let mode := md.getD ((lo + hi) / 2)
    (lo + 4 * mode + hi) / 6
  | .count lambda => lambda.getD 1
  | .rate alpha beta =>
    let a := alpha.getD 1
    let b := beta.getD 1
    a / (a + b)
  | .other => 0

/-- Population mean of a sample vector (`reduce((a,b)=>a+b,0) / n`). -/
noncomputable def listMean (l : List ℝ) : ℝ := l.sum / l.length

/-- Population variance of a sample vector. -/
noncomputable def listVariance (l : List ℝ) : ℝ :=
  (l.map (fun b => (b - listMean l) ^ 2)).sum / l.length

/-- `Math.sqrt(variance) || 1` in `samplesToKDE`: the empirical standard
deviation with a zero result replaced by 1. -/
noncomputable def kdeStdDev (l : List ℝ) : ℝ :=
  let sd := Real.sqrt (listVariance l)
  if sd = 0 then 1 else sd

/-- `Math.max(2 * stdDev, 1)`: the padding added on both sides of the sample
range in `samplesToKDE`. -/
noncomputable def kdePadding (l : List ℝ) : ℝ := Max.max (2 * kdeStdDev l) 1

/-- `samplesToKDE(samples, numPoints)`: Gaussian KDE curve with Silverman
bandwidth, plus summary statistics.  JS `.sort((a,b)=>a-b)` on reals is
embedded as a sort by `≤` (for real values any correct sort produces the
same list). -/
noncomputable def samplesToKDE (samples : List ℝ) (numPoints : Nat) : RenderableDistribution :=
  if samples.isEmpty then ⟨[(0, 1)], 0, 1, ⟨0, 0, 0, 0, 0⟩⟩
  else
    let validSamples := samples.filter (fun s => jsIsFinite s)
    if validSamples.isEmpty then ⟨[(0, 1)], 0, 1, ⟨0, 0, 0, 0, 0⟩⟩
    else
      let n := validSamples.length
      let sorted := validSamples.insertionSort (· ≤ ·)
      let mean := listMean validSamples
      let stdDev := kdeStdDev validSamples
      let iqr := sorted.getD (Nat.floor ((n : ℝ) * 0.75)) 0
               - sorted.getD (Nat.floor ((n : ℝ) * 0.25)) 0
      let rawBandwidth :=
        0.9 * Min.min stdDev (if iqr / 1.34 = 0 then stdDev else iqr / 1.34)
          * (n : ℝ) ^ (-0.2 : ℝ)
      let bandwidth := Max.max rawBandwidth 0.01
      let padding := kdePadding validSamples
      let lo := sorted.head?.getD 0 - padding
      let hi := sorted.getLast?.getD 0 + padding
      let range := hi - lo
      if range ≤ 0 then ⟨[(mean, 1)], mean, stdDev, ⟨mean, mean, mean, mean, mean⟩⟩
      else
        let step := range / (numPoints : ℝ)
        let sqrtTwoPi := Real.sqrt (2 * Real.pi)
        let points := (List.range (numPoints + 1)).map (fun (i : Nat) =>
          let x := lo + (i : ℝ) * step
          let density :=
            ((validSamples.map (fun s => Real.exp (-0.5 * ((x - s) / bandwidth) ^ 2))).sum)
              / ((n : ℝ) * bandwidth * sqrtTwoPi)
          (x, if jsIsFinite density then density else 0))
        let getPercentile := fun (p : ℝ) =>
          sorted.getD (Nat.min (Nat.floor ((n : ℝ) * p)) (n - 1)) mean
        ⟨points, mean, stdDev,
          ⟨getPercentile 0.05, getPercentile 0.25, getPercentile 0.50,
           getPercentile 0.75, getPercentile 0.95⟩⟩

/-! ## Effect kernels (src/lib/inference.ts) -/

/-- `applyLinearEffect`: sensitivity-based multiplier with optional tanh
saturation (the `intercept` field is never read by the source). -/
noncomputable def applyLinearEffect (baseValue : ℝ)
    (coefficient _intercept saturation : Option ℝ)
    (parentValue parentPriorMean : ℝ) : ℝ :=
  let coef := coefficient.getD 0.3
  if |parentPriorMean| < 0.001 then
    let delta := coef * parentValue * 0.01
    baseValue + delta
  else
    let parentDeviation := (parentValue - parentPriorMean) / parentPriorMean
    let effectiveDeviation :=
      match saturation with
      | some s => if 0 < s then s * Real.tanh (parentDeviation / s) else parentDeviation
      | none => parentDeviation
    let multiplier := 1 + coef * effectiveDeviation
    let clampedMultiplier := Min.min (Max.max multiplier 0.1) 10
    baseValue * clampedMultiplier

/-- `applyMultiplicativeEffect`: multiplier `factor ^ log2(parent/baseline)`,
clamped to `[0.1, 10]` (`Math.pow` embedded as real `rpow`). -/
noncomputable def applyMultiplicativeEffect (baseValue : ℝ) (factor baseline : Option ℝ)
    (parentValue : ℝ) : ℝ :=
  let f := factor.getD 1.5
  let b := baseline.getD 1
  if parentValue ≤ 0 ∨ b ≤ 0 then baseValue
  else
    let doublings := Real.logb 2 (parentValue / b)
    let rawMultiplier := f ^ doublings
    let dampedMultiplier := Min.min (Max.max rawMultiplier 0.1) 10
    baseValue * dampedMultiplier

/-- `applyThresholdEffect`: sigmoid blend of the `below`/`above` sensitivities,
applied to the deviation of the parent from the cutoff; the divisor is
`Math.abs(cutoff || 1)`, i.e. `|cutoff|` with a zero cutoff replaced by 1. -/
noncomputable def applyThresholdEffect (baseValue : ℝ)
    (cutoff below above smoothness : Option ℝ) (parentValue parentPriorMean : ℝ) : ℝ :=
  let c := cutoff.getD parentPriorMean
  let bl := below.getD 0.1
  let ab := above.getD 0.5
  let k := smoothness.getD 2
  let weight := 1 / (1 + Real.exp (-k * (parentValue - c)))
  let effectiveCoefficient := bl * (1 - weight) + ab * weight
  let parentDeviation := (parentValue - c) / |if c = 0 then 1 else c|
  let multiplier := 1 + effectiveCoefficient * parentDeviation
  let clampedMultiplier := Min.min (Max.max multiplier 0.1) 10
  baseValue * clampedMultiplier

/-- `applyLogisticEffect`: shift of clamped log-odds. -/
noncomputable def applyLogisticEffect (baseProbability : ℝ)
    (coefficient threshold : Option ℝ) (parentValue : ℝ) : ℝ :=
  let coef := coefficient.getD 0.1
  let thr := threshold.getD 0
  let clampedP := Min.min (Max.max baseProbability 0.001) 0.999
  let logOdds := Real.log (clampedP / (1 - clampedP))
  let newLogOdds := logOdds + coef * (parentValue - thr)
  let clampedLogOdds := Min.min (Max.max newLogOdds (-10)) 10
  1 / (1 + Real.exp (-clampedLogOdds))

/-- `applyEffectToSample`: dispatch on the effect tag.  The source's guards
(NaN inputs, a malformed tag, thrown exceptions, a non-finite result) are
kept structurally; on the real-number embedding `jsIsNaN` and `jsIsFinite`
are constant, and no embedded operation can throw. -/
noncomputable def applyEffectToSample (baseValue : ℝ) (effect : EffectFunction)
    (parentValue parentPriorMean : ℝ) : ℝ :=
  if jsIsNaN baseValue || jsIsNaN parentValue then baseValue
  else
    let result :=
      match effect with
      | .linear c i s => applyLinearEffect baseValue c i s parentValue parentPriorMean
      | .multiplicative f b => applyMultiplicativeEffect baseValue f b parentValue
      | .threshold c bl ab s =>
        applyThresholdEffect baseValue c bl ab s parentValue parentPriorMean
      | .logistic c t => applyLogisticEffect baseValue c t parentValue
    if jsIsFinite result then result else baseValue

/-! ## Stabilization (src/lib/inference.ts) -/

/-- Default circuit-breaker configuration (priorWeight deliberately 0). -/
def DEFAULT_CIRCUIT_BREAKERS : CircuitBreakers := ⟨none, none, some 0, some 3.0⟩

/-- `{ ...DEFAULT_CIRCUIT_BREAKERS, ...node.circuitBreakers }`. -/
def mergeBreakers (nb : Option CircuitBreakers) : CircuitBreakers :=
  match nb with
  | none => DEFAULT_CIRCUIT_BREAKERS
  | some b =>
    ⟨b.minValue <|> DEFAULT_CIRCUIT_BREAKERS.minValue,
     b.maxValue <|> DEFAULT_CIRCUIT_BREAKERS.maxValue,
     b.priorWeight <|> DEFAULT_CIRCUIT_BREAKERS.priorWeight,
     b.maxStdDevRatio <|> DEFAULT_CIRCUIT_BREAKERS.maxStdDevRatio⟩

/-- `applyCircuitBreakers(node, samples)`: per sample — NaN replacement by the
prior mean, then min clamp, then max clamp, then the optional pull toward the
prior mean (applied when `priorWeight` is present and positive). -/
noncomputable def applyCircuitBreakers (node : CausalNode) (samples : List ℝ) : List ℝ :=
  let config := mergeBreakers node.circuitBreakers
  let priorMean := expectedValue node.distribution
  samples.map (fun value =>
    let b0 := if jsIsNaN value then priorMean else value
    let b1 := match config.minValue with
      | some m => Max.max b0 m
      | none => b0
    let b2 := match config.maxValue with
      | some m => Min.min b1 m
      | none => b1
    match config.priorWeight with
    | some w => if 0 < w then priorMean + (b2 - priorMean) * (1 - w) else b2
    | none => b2)

/-- `clampVariance(samples, config)`: compress every sample toward the mean
when the empirical stddev exceeds `|mean| * maxStdDevRatio`. -/
noncomputable def clampVariance (samples : List ℝ) (config : CircuitBreakers) : List ℝ :=
  let n := samples.length
  let mean := samples.sum / (n : ℝ)
  let variance := (samples.map (fun b => (b - mean) ^ 2)).sum / (n : ℝ)
  let stdDev := Real.sqrt variance
  let maxStdDevRatio := config.maxStdDevRatio.getD 2.0
  let maxStdDev := |mean| * maxStdDevRatio
  if stdDev > maxStdDev ∧ maxStdDev > 0 then
    let compressionFactor := maxStdDev / stdDev
    samples.map (fun s => mean + (s - mean) * compressionFactor)
  else samples

/-! ## Propagation engine (src/lib/inference.ts) -/

/-- `new Map(nodes.map(n => [n.id, n]))`: lookup by id, last duplicate wins. -/
def nodeMapGet (nodes : List CausalNode) (id : String) : Option CausalNode :=
  nodes.foldl (fun acc n => if n.id = id then some n else acc) none

/-- The engine's per-node sample store, modelled as a function map. -/
abbrev NodeSamples := String → Option (List ℝ)

/-- The empty sample store. -/
def emptySamples : NodeSamples := fun _ => none

/-- Assign (or overwrite) one node's sample vector. -/
def setSamples (s : NodeSamples) (id : String) (v : List ℝ) : NodeSamples :=
  fun x => if x = id then some v else s x

/-- A mutable JS `Map<string, number>`-style map, as a function map. -/
abbrev NatMap := String → Option Nat

/-- Adjacency map of `topologicalSort`. -/
abbrev AdjMap := String → Option (List String)

/-- Set one key of a `NatMap`. -/
def setNat (m : NatMap) (id : String) (v : Nat) : NatMap :=
  fun x => if x = id then some v else m x

/-- Set one key of an `AdjMap`. -/
def setAdj (m : AdjMap) (id : String) (v : List String) : AdjMap :=
  fun x => if x = id then some v else m x

/-- JS `x || d` on an optional `Nat` read (`undefined` and 0 are falsy). -/
def jsOrNat (o : Option Nat) (d : Nat) : Nat :=
  match o with
  | some v => if v = 0 then d else v
  | none => d

/-- Initial in-degree and adjacency maps of `topologicalSort`: every node id
gets degree 0 and an empty list; each edge then increments its target's
degree and appends the target to its source's list (edges whose source id is
not a key are skipped — the source's optional chaining). -/
def initDegrees (model : CausalModel) : NatMap × AdjMap :=
  let base : NatMap × AdjMap :=
    model.nodes.foldl (fun m n => (setNat m.1 n.id 0, setAdj m.2 n.id []))
      (fun _ => none, fun _ => none)
  model.edges.foldl (fun m e =>
    let inDeg := setNat m.1 e.target ((m.1 e.target).getD 0 + 1)
    let adj := match m.2 e.source with
      | some l => setAdj m.2 e.source (l ++ [e.target])
      | none => m.2
    (inDeg, adj)) base

/-- First-occurrence deduplication (JS `Map` key insertion order). -/
def dedupFirst (l : List String) : List String :=
  l.foldl (fun acc t => if t ∈ acc then acc else acc ++ [t]) []

/-- Insertion-ordered key list of the in-degree map: node ids in node order,
then edge targets that are not node ids, in first-occurrence order. -/
def inDegreeKeys (model : CausalModel) : List String :=
  dedupFirst (model.nodes.map (fun n => n.id) ++ model.edges.map (fun e => e.target))

/-- Kahn's algorithm loop: dequeue an id, emit it when it names a node,
decrement its successors' degrees, enqueue those reaching degree 0.  One
queue entry is consumed per step and total entries are bounded by
nodes + 2·edges, so the fuel passed by `topologicalSort` never runs out. -/
def kahnLoop (nodeMap : String → Option CausalNode) (adj : AdjMap) :
    List String → NatMap → List CausalNode → Nat → List CausalNode
  | [], _, sorted, _ => sorted
  | _, _, sorted, 0 => sorted
  | id :: queue, inDeg, sorted, fuel + 1 =>
    let sorted1 := match nodeMap id with
      | some node => sorted ++ [node]
      | none => sorted
    let children := (adj id).getD []
    let step := children.foldl (fun (st : List String × NatMap) child =>
      let newDegree := jsOrNat (st.2 child) 1 - 1
      let inDeg1 := setNat st.2 child newDegree
      if newDegree = 0 then (st.1 ++ [child], inDeg1) else (st.1, inDeg1))
      (queue, inDeg)
    kahnLoop nodeMap adj step.1 step.2 sorted1 fuel

/-- `topologicalSort(model)`: Kahn's algorithm.  Nodes that never reach
in-degree 0 (members of a cycle, or nodes downstream of an edge whose source
id names no node) are silently absent from the returned order. -/
def topologicalSort (model : CausalModel) : List CausalNode :=
  let maps := initDegrees model
  let queue := (inDegreeKeys model).filter (fun id => (maps.1 id).getD 0 = 0)
  kahnLoop (nodeMapGet model.nodes) maps.2 queue maps.1 []
    (model.nodes.length + 2 * model.edges.length + 1)

/-- `computeChildSamples`: draw base samples for the child, then at each index
fold every in-edge's effect over the value, reading each parent's sample at
the same index (a missing parent vector or index reads as 0). -/
noncomputable def computeChildSamples (node : CausalNode) (edges : List CausalEdge)
    (parentSamples : NodeSamples) (nodeMap : String → Option CausalNode)
    (sampleCount : Nat) (g : Rng) (k : Nat) : List ℝ × Nat :=
  let parentEdges := edges.filter (fun e => e.target = node.id)
  let (baseSamples, k1) := sampleFromDistribution node.distribution sampleCount g k
  (baseSamples.enum.map (fun ib =>
    parentEdges.foldl (fun value edge =>
      let parentValue := ((parentSamples edge.source).bind (fun l => l.get? ib.1)).getD 0
      let parentPriorMean :=
        match nodeMap edge.source with
        | some parentNode => expectedValue parentNode.distribution
        | none => 0
      applyEffectToSample value edge.effect parentValue parentPriorMean) ib.2), k1)

/-- Per-node processing loop of `propagateWithSampling`: an intervened node
gets the constant vector (consuming no RNG draws) and skips stabilization;
otherwise samples are produced (exogenous prior draw or child computation)
and passed through circuit breakers and variance clamping. -/
noncomputable def propagateLoop (edges : List CausalEdge)
    (nodeMap : String → Option CausalNode) (interventions : String → Option ℝ)
    (sampleCount : Nat) (g : Rng) :
    List CausalNode → NodeSamples → Nat → NodeSamples × Nat
  | [], samples, k => (samples, k)
  | node :: rest, samples, k =>
    match interventions node.id with
    | some v =>
      propagateLoop edges nodeMap interventions sampleCount g rest
        (setSamples samples node.id (List.replicate sampleCount v)) k
    | none =>
      let (raw, k1) :=
        if node.type = "exogenous" then
          sampleFromDistribution node.distribution sampleCount g k
        else
          computeChildSamples node edges samples nodeMap sampleCount g k
      let stabilized := clampVariance (applyCircuitBreakers node raw)
        (mergeBreakers node.circuitBreakers)
      propagateLoop edges nodeMap interventions sampleCount g rest
        (setSamples samples node.id stabilized) k1

/-- Sample production of `propagateWithSampling`, also returning the final
RNG cursor (used by the sensitivity analyzer, whose repeated propagations
consume one global stream). -/
noncomputable def propagateCore (model : CausalModel)
    (interventions : String → Option ℝ) (sampleCount : Nat) (g : Rng) (k : Nat) :
    NodeSamples × Nat :=
  propagateLoop model.edges (nodeMapGet model.nodes) interventions sampleCount g
    (topologicalSort model) emptySamples k

/-- Result of one propagation. -/
structure PropagationResult where
  samples : NodeSamples
  distributions : String → Option RenderableDistribution

/-- `propagateWithSampling(model, interventions, sampleCount)`, with the RNG
stream and cursor explicit; distributions are the per-node KDEs. -/
noncomputable def propagateWithSampling (model : CausalModel)
    (interventions : String → Option ℝ) (sampleCount : Nat) (g : Rng) (k : Nat) :
    PropagationResult :=
  let samples := (propagateCore model interventions sampleCount g k).1
  ⟨samples, fun id => (samples id).map (fun s => samplesToKDE s 50)⟩

/-- BFS loop shared by `getDescendants` (inference.ts) and
`findDownstreamNodes` (sensitivity.ts): scan all edges from the dequeued id,
adding unseen targets to the set and the queue.  Dequeues are bounded by
1 + #edges, so the fuel passed by the callers never runs out. -/
def bfsDownstream (edges : List CausalEdge) :
    List String → List String → Nat → List String
  | [], descendants, _ => descendants
  | _, descendants, 0 => descendants
  | current :: queue, descendants, fuel + 1 =>
    let step := edges.foldl (fun st e =>
      if e.source = current ∧ e.target ∉ st.1 then
        (st.1 ++ [e.target], st.2 ++ [e.target])
      else st) (descendants, queue)
    bfsDownstream edges step.2 step.1 fuel

/-- `getDescendants(model, nodeId)`: ids reachable by forward BFS. -/
def getDescendants (model : CausalModel) (nodeId : String) : List String :=
  bfsDownstream model.edges [nodeId] [] (model.edges.length + 1)

/-- `isDescendant(model, ancestorId, descendantId)`. -/
def isDescendant (model : CausalModel) (ancestorId descendantId : String) : Bool :=
  (getDescendants model ancestorId).contains descendantId

/-! ## Sensitivity analysis (src/lib/sensitivity.ts) -/

/-- One downstream impact record. -/
structure NodeImpact where
  nodeId : String
  nodeLabel : String
  baseline : ℝ
  intervened : ℝ
  absoluteChange : ℝ
  pctChange : ℝ
  units : Option String

/-- One intervention run. -/
structure InterventionResult where
  level : String
  multiplier : ℝ
  value : ℝ
  impacts : List NodeImpact

/-- Detailed results for one exogenous node. -/
structure SensitivityResult where
  exogenousNodeId : String
  exogenousNodeLabel : String
  units : Option String
  priorMean : ℝ
  interventions : List InterventionResult

/-- Strong/weak effect summary entry. -/
structure EffectSummary where
  source : String
  target : String
  avgPctChange : ℝ
  avgAbsoluteChange : ℝ
  units : Option String

/-- Asymmetric effect summary entry. -/
structure AsymmetricEffect where
  source : String
  target : String
  increaseEffect : ℝ
  decreaseEffect : ℝ

/-- Weak end-to-end propagation warning. -/
structure BottleneckWarning where
  exogenousNode : String
  terminalNode : String
  inputChange : String
  terminalPctChange : ℝ
  terminalAbsoluteChange : ℝ
  units : Option String
  suspectedBottleneck : Option String

/-- Summary section of the analysis. -/
structure SensitivitySummary where
  strongEffects : List EffectSummary
  weakEffects : List EffectSummary
  asymmetricEffects : List AsymmetricEffect
  bottlenecks : List BottleneckWarning

/-- The full analysis (the wall-clock `timestamp` field is omitted). -/
structure SensitivityAnalysis where
  modelTitle : String
  sampleCount : Nat
  results : List SensitivityResult
  summary : SensitivitySummary

/-- `findExogenousNodes`: nodes whose declared type is exogenous. -/
def findExogenousNodes (model : CausalModel) : List CausalNode :=
  model.nodes.filter (fun n => n.type = "exogenous")

/-- `findLeafNodes`: nodes with no outgoing edge.  The source computes this
but the analysis never uses it. -/
def findLeafNodes (model : CausalModel) : List CausalNode :=
  model.nodes.filter (fun n => ¬ (model.edges.map (fun e => e.source)).contains n.id)

/-- `findDownstreamNodes(model, nodeId)`: same BFS as `getDescendants`. -/
def findDownstreamNodes (model : CausalModel) (nodeId : String) : List String :=
  bfsDownstream model.edges [nodeId] [] (model.edges.length + 1)

/-- Cached per-node baseline means.  For a node id absent from the result
(impossible for the valid acyclic models the analyzer expects) the embedding
reads mean 0 where JS would throw. -/
noncomputable def baselineMeansOf (samples : NodeSamples) : String → ℝ :=
  fun id => listMean ((samples id).getD [])

/-- The four intervention levels. -/
def interventionLevels : List (String × ℝ) :=
  [("50% decrease", 0.5), ("25% decrease", 0.75),
   ("25% increase", 1.25), ("50% increase", 1.5)]

/-- One intervention run's impact list over the downstream node ids (a
missing node or sample vector is totalized to label "", units none, mean 0,
where JS would throw). -/
noncomputable def computeImpacts (model : CausalModel) (baselineMeans : String → ℝ)
    (downstream : List String) (resultSamples : NodeSamples) : List NodeImpact :=
  downstream.map (fun nodeId =>
    let node := nodeMapGet model.nodes nodeId
    let baseVal := baselineMeans nodeId
    let intVal := listMean ((resultSamples nodeId).getD [])
    { nodeId := nodeId
      nodeLabel := (node.map (fun n => n.label)).getD ""
      baseline := baseVal
      intervened := intVal
      absoluteChange := intVal - baseVal
      pctChange := if baseVal ≠ 0 then (intVal - baseVal) / |baseVal| * 100 else 0
      units := node.bind (fun n => n.units) })

/-- The four intervention runs for one exogenous node, threading the RNG
cursor through the repeated propagations (the source's repeated
`propagateWithSampling` calls consume one global `Math.random` stream). -/
noncomputable def runInterventionLevels (model : CausalModel) (sampleCount : Nat)
    (baselineMeans : String → ℝ) (exoNode : CausalNode) (prior : ℝ)
    (downstream : List String) (g : Rng) :
    List (String × ℝ) → Nat → List InterventionResult × Nat
  | [], k => ([], k)
  | (label, multiplier) :: rest, k =>
    let interventionValue := prior * multiplier
    let (resultSamples, k1) := propagateCore model
      (fun id => if id = exoNode.id then some interventionValue else none) sampleCount g k
    let impacts := computeImpacts model baselineMeans downstream resultSamples
    let (restResults, k2) := runInterventionLevels model sampleCount baselineMeans exoNode
      prior downstream g rest k1
    ({ level := label, multiplier := multiplier, value := interventionValue,
       impacts := impacts } :: restResults, k2)

/-- Detailed results: per exogenous node, the four intervention runs. -/
noncomputable def buildResults (model : CausalModel) (sampleCount : Nat)
    (baselineMeans : String → ℝ) (g : Rng) :
    List CausalNode → Nat → List SensitivityResult × Nat
  | [], k => ([], k)
  | exoNode :: rest, k =>
    let prior := expectedValue exoNode.distribution
    let downstream := findDownstreamNodes model exoNode.id
    let (interventions, k1) := runInterventionLevels model sampleCount baselineMeans
      exoNode prior downstream g interventionLevels k
    let (restResults, k2) := buildResults model sampleCount baselineMeans g rest k1
    ({ exogenousNodeId := exoNode.id, exogenousNodeLabel := exoNode.label,
       units := exoNode.units, priorMean := prior, interventions := interventions }
      :: restResults, k2)

/-- Aggregation entry of the summary pass. -/
structure EffectEntry where
  increases : List ℝ
  decreases : List ℝ
  absoluteChanges : List ℝ
  units : Option String

/-- Push one impact's numbers into an aggregation entry. -/
def updateEntry (e : EffectEntry) (isIncrease : Bool) (pct absC : ℝ) : EffectEntry :=
  { e with
    absoluteChanges := e.absoluteChanges ++ [absC]
    increases := if isIncrease then e.increases ++ [pct] else e.increases
    decreases := if isIncrease then e.decreases else e.decreases ++ [pct] }

/-- Update the aggregation map at a key, inserting it at the end on first
occurrence (JS `Map` insertion order).  The source keys by the string
"source → target" and later splits it back; the embedding keys by the pair,
which carries the same data. -/
def pushEntry (m : List ((String × String) × EffectEntry)) (key : String × String)
    (units : Option String) (isIncrease : Bool) (pct absC : ℝ) :
    List ((String × String) × EffectEntry) :=
  if (m.map Prod.fst).contains key then
    m.map (fun kv => if kv.1 = key then (kv.1, updateEntry kv.2 isIncrease pct absC) else kv)
  else m ++ [(key, updateEntry ⟨[], [], [], units⟩ isIncrease pct absC)]

/-- The effect-strength aggregation pass over all results. -/
noncomputable def effectStrengthsOf (results : List SensitivityResult) :
    List ((String × String) × EffectEntry) :=
  results.foldl (fun m result =>
    result.interventions.foldl (fun m intervention =>
      let isIncrease := decide (1 < intervention.multiplier)
      intervention.impacts.foldl (fun m impact =>
        pushEntry m (result.exogenousNodeLabel, impact.nodeLabel) impact.units isIncrease
          |impact.pctChange| |impact.absoluteChange|) m) m) []

/-- Mean of a list guarded by the source's length check. -/
noncomputable def avgOrZero (l : List ℝ) : ℝ :=
  if 0 < l.length then l.sum / l.length else 0

/-- Strong/weak/asymmetric classification accumulator. -/
structure ClassifiedEffects where
  strong : List EffectSummary
  weak : List EffectSummary
  asymmetric : List AsymmetricEffect

/-- Classification pass over the aggregation map. -/
noncomputable def classifyEffects (m : List ((String × String) × EffectEntry)) :
    ClassifiedEffects :=
  m.foldl (fun acc kv =>
    let avgIncrease := avgOrZero kv.2.increases
    let avgDecrease := avgOrZero kv.2.decreases
    let avgOverall := (avgIncrease + avgDecrease) / 2
    let avgAbsoluteChange := avgOrZero kv.2.absoluteChanges
    let acc1 :=
      if 5 < avgOverall then
        { acc with strong := acc.strong ++
            [⟨kv.1.1, kv.1.2, avgOverall, avgAbsoluteChange, kv.2.units⟩] }
      else if avgOverall < 1 then
        { acc with weak := acc.weak ++
            [⟨kv.1.1, kv.1.2, avgOverall, avgAbsoluteChange, kv.2.units⟩] }
      else acc
    if 0 < avgIncrease ∧ 0 < avgDecrease ∧
        2 < Max.max avgIncrease avgDecrease / Min.min avgIncrease avgDecrease then
      { acc1 with asymmetric := acc1.asymmetric ++
          [⟨kv.1.1, kv.1.2, avgIncrease, avgDecrease⟩] }
    else acc1) ⟨[], [], []⟩

/-- One step of the bottleneck scan: skip the impact under test and impacts
of declared type 'terminal'; otherwise update the running minimum (strict
comparison, so the first minimizer is kept). -/
noncomputable def scanStep (terminalIds : List String) (impactId : String)
    (st : Option ℝ × Option String) (ii : NodeImpact) : Option ℝ × Option String :=
  if ii.nodeId = impactId then st
  else if terminalIds.contains ii.nodeId then st
  else
    match st.1 with
    | some sm =>
      if |ii.pctChange| < sm then (some |ii.pctChange|, some ii.nodeLabel) else st
    | none => (some |ii.pctChange|, some ii.nodeLabel)

/-- Bottleneck scan over one terminal impact: running minimum of the absolute
pct change over impacts that are neither the terminal impact itself nor of
declared type 'terminal' (the source's `Infinity` start is modelled as
`none`; the first candidate always replaces it). -/
noncomputable def scanBottleneck (terminalIds : List String) (impactId : String)
    (impacts : List NodeImpact) : Option ℝ × Option String :=
  impacts.foldl (scanStep terminalIds impactId) (none, none)

/-- The warning issued for one flagged terminal impact: the scanned minimum's
label is recorded only when that minimum is below 5. -/
noncomputable def mkBottleneckWarning (terminalIds : List String) (exoLabel : String)
    (largeIntervention : InterventionResult) (impact : NodeImpact) : BottleneckWarning :=
  let scan := scanBottleneck terminalIds impact.nodeId largeIntervention.impacts
  { exogenousNode := exoLabel
    terminalNode := impact.nodeLabel
    inputChange := "50% increase"
    terminalPctChange := impact.pctChange
    terminalAbsoluteChange := impact.absoluteChange
    units := impact.units
    suspectedBottleneck :=
      match scan.1 with
      | some sm => if sm < 5 then scan.2 else none
      | none => none }

/-- Bottleneck detection: for each exogenous node's multiplier-1.5 run, flag
every impacted node of declared type 'terminal' whose absolute pct change is
below 10. -/
noncomputable def computeBottlenecks (terminalIds : List String)
    (results : List SensitivityResult) : List BottleneckWarning :=
  results.foldl (fun acc result =>
    match result.interventions.find? (fun i => i.multiplier = 1.5) with
    | none => acc
    | some largeIntervention =>
      largeIntervention.impacts.foldl (fun acc impact =>
        if terminalIds.contains impact.nodeId then
          if |impact.pctChange| < 10 then
            acc ++ [mkBottleneckWarning terminalIds result.exogenousNodeLabel
              largeIntervention impact]
          else acc
        else acc) acc) []

/-- `runSensitivityAnalysis(model, sampleCount)`: baseline run, four
intervention runs per exogenous node, then the classification summary.  The
source also computes `findLeafNodes` but never uses it; the wall-clock
timestamp is omitted. -/
noncomputable def runSensitivityAnalysis (model : CausalModel) (sampleCount : Nat)
    (g : Rng) (k : Nat) : SensitivityAnalysis :=
  let exogenousNodes := findExogenousNodes model
  let (baselineSamples, k1) := propagateCore model (fun _ => none) sampleCount g k
  let baselineMeans := baselineMeansOf baselineSamples
  let (results, _) := buildResults model sampleCount baselineMeans g exogenousNodes k1
  let terminalIds := (model.nodes.filter (fun n => n.type = "terminal")).map (fun n => n.id)
  let classified := classifyEffects (effectStrengthsOf results)
  let strongSorted := classified.strong.insertionSort
    (fun a b => b.avgPctChange ≤ a.avgPctChange)
  let weakSorted := classified.weak.insertionSort
    (fun a b => a.avgPctChange ≤ b.avgPctChange)
  { modelTitle := model.title
    sampleCount := sampleCount
    results := results
    summary :=
      { strongEffects := strongSorted.take 10
        weakEffects := weakSorted.take 10
        asymmetricEffects := classified.asymmetric
        bottlenecks := computeBottlenecks terminalIds results } }

/-! ## General lemmas -/

/-- Sum of an affine contraction toward a center. -/
theorem sum_map_affine (l : List ℝ) (a b : ℝ) :
    (l.map (fun s => a + (s - a) * b)).sum = l.length * a + (l.sum - l.length * a) * b := by
  induction l with
  | nil => simp
  | cons x xs ih =>
    simp only [List.map_cons, List.sum_cons, ih, List.length_cons]
    push_cast
    ring

/-! ## Claim C10 -/

/-- Claim C10: for every sample vector and circuit-breaker configuration,
`clampVariance` preserves the empirical mean exactly (in the exact real
arithmetic of the embedding), whether or not compression is triggered. -/
theorem C10_clampVariance_preserves_mean (samples : List ℝ) (config : CircuitBreakers) :
    listMean (clampVariance samples config) = listMean samples := by
  unfold clampVariance
  dsimp only
  split
  · unfold listMean
    rw [List.length_map, sum_map_affine]
    rcases Nat.eq_zero_or_pos samples.length with h | h
    · rw [List.length_eq_zero.mp h]
      simp
    · have hn : ((samples.length : ℝ)) ≠ 0 := by positivity
      field_simp
  · rfl

/-! ## Length lemmas for claim C2 -/

theorem sampleN_length (f : Rng → Nat → ℝ × Nat) (g : Rng) (n : Nat) :
    ∀ k : Nat, (sampleN f g k n).1.length = n := by
  induction n with
  | zero => intro k; rfl
  | succ n ih =>
    intro k
    rcases hfk : f g k with ⟨v, k1⟩
    rcases hs : sampleN f g k1 n with ⟨rest, k2⟩
    have hr : rest.length = n := by
      have := ih k1
      rw [hs] at this
      exact this
    simp [sampleN, hfk, hs, hr]

theorem sampleFromDistribution_length (dist : Distribution) (n : Nat) (g : Rng) (k : Nat) :
    (sampleFromDistribution dist n g k).1.length = n := by
  cases dist with
  | binary p => exact sampleN_length _ _ _ _
  | categorical probs =>
    cases probs with
    | none => simp [sampleFromDistribution]
    | some ps =>
      simp only [sampleFromDistribution]
      split
      · exact sampleN_length _ _ _ _
      · simp
  | continuous cdist params =>
    simp only [sampleFromDistribution]
    split_ifs <;> exact sampleN_length _ _ _ _
  | bounded mn mx md => exact sampleN_length _ _ _ _
  | count lam => exact sampleN_length _ _ _ _
  | rate a b => exact sampleN_length _ _ _ _
  | other => exact sampleN_length _ _ _ _

theorem computeChildSamples_length (node : CausalNode) (edges : List CausalEdge)
    (parentSamples : NodeSamples) (nodeMap : String → Option CausalNode)
    (n : Nat) (g : Rng) (k : Nat) :
    (computeChildSamples node edges parentSamples nodeMap n g k).1.length = n := by
  rcases hb : sampleFromDistribution node.distribution n g k with ⟨base, k1⟩
  have hl : base.length = n := by
    have := sampleFromDistribution_length node.distribution n g k
    rw [hb] at this
    exact this
  simp [computeChildSamples, hb, hl]

theorem applyCircuitBreakers_length (node : CausalNode) (samples : List ℝ) :
    (applyCircuitBreakers node samples).length = samples.length := by
  simp [applyCircuitBreakers]

theorem clampVariance_length (samples : List ℝ) (config : CircuitBreakers) :
    (clampVariance samples config).length = samples.length := by
  unfold clampVariance
  dsimp only
  split
  · simp
  · rfl

/-- Length invariant of the propagation loop: every stored vector has length
`sampleCount`. -/
theorem propagateLoop_length (edges : List CausalEdge)
    (nodeMap : String → Option CausalNode) (ivs : String → Option ℝ)
    (n : Nat) (g : Rng) :
    ∀ (l : List CausalNode) (samples : NodeSamples) (k : Nat),
      (∀ id s, samples id = some s → s.length = n) →
      ∀ id s, (propagateLoop edges nodeMap ivs n g l samples k).1 id = some s →
        s.length = n := by
  intro l
  induction l with
  | nil =>
    intro samples k h id s hs
    exact h id s hs
  | cons node rest ih =>
    intro samples k h id s hs
    rcases hiv : ivs node.id with _ | v
    · rcases hraw : (if node.type = "exogenous" then
          sampleFromDistribution node.distribution n g k
        else computeChildSamples node edges samples nodeMap n g k) with ⟨raw, k1⟩
      have hrawlen : raw.length = n := by
        have : (if node.type = "exogenous" then
            sampleFromDistribution node.distribution n g k
          else computeChildSamples node edges samples nodeMap n g k).1.length = n := by
          split
          · exact sampleFromDistribution_length _ _ _ _
          · exact computeChildSamples_length _ _ _ _ _ _ _
        rw [hraw] at this
        exact this
      rw [propagateLoop, hiv] at hs
      simp only [hraw] at hs
      refine ih _ _ ?_ id s hs
      intro id' s' hs'
      by_cases hid : id' = node.id
      · rw [setSamples, if_pos hid] at hs'
        have := hs'.symm
        injection hs' with hs''
        rw [← hs'', clampVariance_length, applyCircuitBreakers_length, hrawlen]
      · rw [setSamples, if_neg hid] at hs'
        exact h id' s' hs'
    · rw [propagateLoop, hiv] at hs
      refine ih _ _ ?_ id s hs
      intro id' s' hs'
      by_cases hid : id' = node.id
      · rw [setSamples, if_pos hid] at hs'
        injection hs' with hs''
        rw [← hs'']
        exact List.length_replicate _ _
      · rw [setSamples, if_neg hid] at hs'
        exact h id' s' hs'

/-! ## Claim C2 -/

/-- Claim C2 (amended): every sample vector in the result of
`propagateWithSampling` has length exactly `sampleCount`.  The finiteness
half of the original claim fails over the IEEE value domain: the
stabilization stage replaces only NaN values — a ±∞ sample passes
`applyCircuitBreakers` unchanged and leaves `clampVariance`'s NaN-guarded
comparison false (see the counterexample over `FVal` further below) — and
an intervention value is stored verbatim with stabilization skipped. -/
theorem C2_propagate_length (model : CausalModel) (ivs : String → Option ℝ)
    (sampleCount : Nat) (g : Rng) (k : Nat) (id : String) (s : List ℝ)
    (hs : (propagateWithSampling model ivs sampleCount g k).samples id = some s) :
    s.length = sampleCount := by
  refine propagateLoop_length model.edges (nodeMapGet model.nodes) ivs sampleCount g
    (topologicalSort model) emptySamples k ?_ id s hs
  intro id' s' hs'
  simp [emptySamples] at hs'

/-- Concrete model for the C2 witness: one node, intervened. -/
def witNodeC2 : CausalNode := ⟨"A", "A", "endogenous", none, .other, none⟩

/-- Concrete single-node model for the C2 witness. -/
def witModelC2 : CausalModel := ⟨"w", [witNodeC2], []⟩

/-- Witness for amended claim C2 at a concrete intervened model. -/
theorem C2_witness : (List.replicate 2 (5 : ℝ)).length = 2 :=
  C2_propagate_length witModelC2 (fun x => if x = "A" then some 5 else none)
    2 (fun _ => 0) 0 "A" (List.replicate 2 5) rfl

/-! ## Claim C3 -/

/-- The empirical variance of a constant vector is 0. -/
theorem listVariance_replicate (n : Nat) (v : ℝ) :
    listVariance (List.replicate n v) = 0 := by
  rcases Nat.eq_zero_or_pos n with h | h
  · subst h
    simp [listVariance, listMean]
  · have hn : ((n : ℝ)) ≠ 0 := by positivity
    have hm : listMean (List.replicate n v) = v := by
      simp only [listMean, List.sum_replicate, List.length_replicate, nsmul_eq_mul]
      field_simp
    simp [listVariance, hm, List.map_replicate]

/-- An intervened node's stored vector is the constant vector, whatever comes
after it in the processing order. -/
theorem propagateLoop_intervened (edges : List CausalEdge)
    (nodeMap : String → Option CausalNode) (ivs : String → Option ℝ)
    (n : Nat) (g : Rng) (id : String) (v : ℝ) (hiv : ivs id = some v) :
    ∀ (l : List CausalNode) (samples : NodeSamples) (k : Nat),
      (id ∈ l.map (fun nd => nd.id) ∨ samples id = some (List.replicate n v)) →
      (propagateLoop edges nodeMap ivs n g l samples k).1 id =
        some (List.replicate n v) := by
  intro l
  induction l with
  | nil =>
    intro samples k h
    rcases h with h | h
    · simp at h
    · exact h
  | cons node rest ih =>
    intro samples k h
    by_cases hid : node.id = id
    · have hiv' : ivs node.id = some v := by rw [hid]; exact hiv
      rw [propagateLoop]
      simp only [hiv']
      refine ih _ _ (Or.inr ?_)
      rw [setSamples, if_pos hid.symm]
    · have hmem : id ∈ rest.map (fun nd => nd.id) ∨ samples id = some (List.replicate n v) := by
        rcases h with h | h
        · left
          simp only [List.map_cons, List.mem_cons] at h
          rcases h with h | h
          · exact absurd h.symm hid
          · exact h
        · right
          exact h
      rcases hivn : ivs node.id with _ | w
      · rcases hraw : (if node.type = "exogenous" then
            sampleFromDistribution node.distribution n g k
          else computeChildSamples node edges samples nodeMap n g k) with ⟨raw, k1⟩
        rw [propagateLoop]
        simp only [hivn, hraw]
        refine ih _ _ ?_
        rcases hmem with hm | hm
        · exact Or.inl hm
        · refine Or.inr ?_
          rw [setSamples, if_neg (fun hc => hid hc.symm)]
          exact hm
      · rw [propagateLoop]
        simp only [hivn]
        refine ih _ _ ?_
        rcases hmem with hm | hm
        · exact Or.inl hm
        · refine Or.inr ?_
          rw [setSamples, if_neg (fun hc => hid hc.symm)]
          exact hm

/-- Claim C3: a node carrying an intervention value `v` and appearing in the
topological order is assigned the constant vector `replicate sampleCount v`
(hence empirical variance 0) in the result of `propagateWithSampling`; the
equality with the raw constant vector shows that neither circuit breakers
nor variance clamping touched it. -/
theorem C3_intervention_constant_vector (model : CausalModel)
    (ivs : String → Option ℝ) (sampleCount : Nat) (g : Rng) (k : Nat)
    (id : String) (v : ℝ) (hiv : ivs id = some v)
    (hmem : id ∈ (topologicalSort model).map (fun nd => nd.id)) :
    (propagateWithSampling model ivs sampleCount g k).samples id =
      some (List.replicate sampleCount v) ∧
    listVariance (List.replicate sampleCount v) = 0 := by
  constructor
  · exact propagateLoop_intervened model.edges (nodeMapGet model.nodes) ivs sampleCount g
      id v hiv (topologicalSort model) emptySamples k (Or.inl hmem)
  · exact listVariance_replicate _ _

/-- Concrete node for the C3 witness: its breakers set a min clamp of 10,
yet the intervention value 5 below that clamp survives untouched. -/
def witNodeC3 : CausalNode :=
  ⟨"B", "B", "endogenous", none, .other, some ⟨some 10, none, none, none⟩⟩

/-- Concrete single-node model for the C3 witness. -/
def witModelC3 : CausalModel := ⟨"w", [witNodeC3], []⟩

/-- Witness for claim C3 at a concrete model whose min clamp would have
raised the intervention value had the breakers run. -/
theorem C3_witness :
    (propagateWithSampling witModelC3 (fun x => if x = "B" then some 5 else none)
        2 (fun _ => 0) 0).samples "B" = some (List.replicate 2 (5 : ℝ)) ∧
    listVariance (List.replicate 2 (5 : ℝ)) = 0 :=
  C3_intervention_constant_vector witModelC3 (fun x => if x = "B" then some 5 else none)
    2 (fun _ => 0) 0 "B" 5 rfl (by decide)

/-! ## Claim C4 -/

/-- The Threshold kernel exactly as claim C4 words it: the deviation is
divided by `max(|cutoff|, 1)`. -/
noncomputable def thresholdKernelClaimC4 (baseValue : ℝ)
    (cutoff below above smoothness : Option ℝ) (parentValue parentPriorMean : ℝ) : ℝ :=
  let c := cutoff.getD parentPriorMean
  let bl := below.getD 0.1
  let ab := above.getD 0.5
  let k := smoothness.getD 2
  let weight := 1 / (1 + Real.exp (-k * (parentValue - c)))
  let effectiveCoefficient := bl * (1 - weight) + ab * weight
  let deviation := (parentValue - c) / Max.max |c| 1
  let multiplier := 1 + effectiveCoefficient * deviation
  baseValue * Min.min (Max.max multiplier 0.1) 10

/-- The Threshold kernel as amended: the deviation is divided by `|cutoff|`,
with a zero cutoff's divisor replaced by 1 (the source's
`Math.abs(cutoff || 1)`), not by `max(|cutoff|, 1)`. -/
noncomputable def thresholdKernelAmendedC4 (baseValue : ℝ)
    (cutoff below above smoothness : Option ℝ) (parentValue parentPriorMean : ℝ) : ℝ :=
  let c := cutoff.getD parentPriorMean
  let bl := below.getD 0.1
  let ab := above.getD 0.5
  let k := smoothness.getD 2
  let weight := 1 / (1 + Real.exp (-k * (parentValue - c)))
  let effectiveCoefficient := bl * (1 - weight) + ab * weight
  let deviation := (parentValue - c) / (if c = 0 then 1 else |c|)
  let multiplier := 1 + effectiveCoefficient * deviation
  baseValue * Min.min (Max.max multiplier 0.1) 10

/-- The absolute value of the source's `cutoff || 1` equals the amended
divisor. -/
theorem abs_cutoff_or_one (c : ℝ) : |if c = 0 then 1 else c| = if c = 0 then 1 else |c| := by
  split_ifs with h
  · simp
  · rfl

/-- Counterexample to claim C4: at cutoff 1/2 (with below = above = 1, so the
sigmoid blend cancels), parent 1 and base 1, the source kernel divides the
deviation by |cutoff| = 1/2 and returns 2, while the claimed formula divides
by max(|cutoff|, 1) = 1 and returns 3/2. -/
theorem C4_counterexample :
    applyThresholdEffect 1 (some (1/2)) (some 1) (some 1) (some 2) 1 0 = 2 ∧
    thresholdKernelClaimC4 1 (some (1/2)) (some 1) (some 1) (some 2) 1 0 = 3/2 ∧
    applyThresholdEffect 1 (some (1/2)) (some 1) (some 1) (some 2) 1 0 ≠
      thresholdKernelClaimC4 1 (some (1/2)) (some 1) (some 1) (some 2) 1 0 := by
  have h1 : applyThresholdEffect 1 (some (1/2)) (some 1) (some 1) (some 2) 1 0 = 2 := by
    unfold applyThresholdEffect
    simp only [Option.getD_some]
    have hc : (if (1/2 : ℝ) = 0 then (1 : ℝ) else 1/2) = 1/2 := by norm_num
    rw [hc]
    have habs : |(1/2 : ℝ)| = 1/2 := by norm_num
    rw [habs]
    have hcoef : ∀ w : ℝ, (1 : ℝ) * (1 - w) + 1 * w = 1 := by intro w; ring
    rw [hcoef]
    norm_num
  have h2 : thresholdKernelClaimC4 1 (some (1/2)) (some 1) (some 1) (some 2) 1 0 = 3/2 := by
    unfold thresholdKernelClaimC4
    simp only [Option.getD_some]
    have habs : |(1/2 : ℝ)| = 1/2 := by norm_num
    rw [habs]
    have hmax : Max.max (1/2 : ℝ) 1 = 1 := by norm_num
    rw [hmax]
    have hcoef : ∀ w : ℝ, (1 : ℝ) * (1 - w) + 1 * w = 1 := by intro w; ring
    rw [hcoef]
    norm_num
  exact ⟨h1, h2, by rw [h1, h2]; norm_num⟩

/-- Claim C4 (amended): `applyThresholdEffect` computes the deviation as
(parent − cutoff) divided by |cutoff| — with a zero cutoff's divisor
replaced by 1 — and returns base · clamp(1 + blended coefficient · deviation,
0.1, 10). -/
theorem C4_threshold_formula (baseValue : ℝ) (cutoff below above smoothness : Option ℝ)
    (parentValue parentPriorMean : ℝ) :
    applyThresholdEffect baseValue cutoff below above smoothness
        parentValue parentPriorMean =
      thresholdKernelAmendedC4 baseValue cutoff below above smoothness
        parentValue parentPriorMean := by
  unfold applyThresholdEffect thresholdKernelAmendedC4
  dsimp only
  rw [abs_cutoff_or_one]

/-! ## Claim C5 -/

/-- Lower bound on the mean of a lower-bounded nonempty list. -/
theorem le_sum_div_length (l : List ℝ) (m : ℝ) (hne : l ≠ [])
    (h : ∀ v ∈ l, m ≤ v) : m ≤ l.sum / l.length := by
  have hlen : 0 < (l.length : ℝ) := by
    have := List.length_pos.mpr hne
    exact_mod_cast this
  have hsum : (l.length : ℝ) * m ≤ l.sum := by
    have := List.card_nsmul_le_sum l m h
    simpa [nsmul_eq_mul] using this
  rw [le_div_iff₀ hlen]
  linarith

/-- Upper bound on the mean of an upper-bounded nonempty list. -/
theorem sum_div_length_le (l : List ℝ) (M : ℝ) (hne : l ≠ [])
    (h : ∀ v ∈ l, v ≤ M) : l.sum / l.length ≤ M := by
  have hlen : 0 < (l.length : ℝ) := by
    have := List.length_pos.mpr hne
    exact_mod_cast this
  have hsum : l.sum ≤ (l.length : ℝ) * M := by
    have := List.sum_le_card_nsmul l M h
    simpa [nsmul_eq_mul] using this
  rw [div_le_iff₀ hlen]
  linarith

/-- Variance clamping preserves a lower bound: compression moves samples
toward their own mean, which satisfies the bound. -/
theorem clampVariance_lower_bound (samples : List ℝ) (config : CircuitBreakers)
    (m : ℝ) (h : ∀ v ∈ samples, m ≤ v) :
    ∀ v ∈ clampVariance samples config, m ≤ v := by
  intro v hv
  unfold clampVariance at hv
  dsimp only at hv
  split at hv
  · rename_i hcond
    obtain ⟨hstd, hcap⟩ := hcond
    simp only [List.mem_map] at hv
    obtain ⟨x, hx, hxv⟩ := hv
    have hne : samples ≠ [] := by
      intro he
      subst he
      simp at hx
    have hmean : m ≤ samples.sum / samples.length := le_sum_div_length _ _ hne h
    have hstdpos : (0 : ℝ) <
        Real.sqrt ((samples.map
          (fun b => (b - samples.sum / samples.length) ^ 2)).sum / samples.length) :=
      lt_trans hcap hstd
    have hf0 : 0 < |samples.sum / ↑samples.length| * config.maxStdDevRatio.getD 2.0 /
        Real.sqrt ((samples.map
          (fun b => (b - samples.sum / samples.length) ^ 2)).sum / samples.length) :=
      div_pos hcap hstdpos
    have hf1 : |samples.sum / ↑samples.length| * config.maxStdDevRatio.getD 2.0 /
        Real.sqrt ((samples.map
          (fun b => (b - samples.sum / samples.length) ^ 2)).sum / samples.length) < 1 :=
      (div_lt_one hstdpos).mpr hstd
    have hxm : m ≤ x := h x hx
    rw [← hxv]
    nlinarith [hf0, hf1, hmean, hxm]
  · exact h v hv

/-- Variance clamping preserves an upper bound. -/
theorem clampVariance_upper_bound (samples : List ℝ) (config : CircuitBreakers)
    (M : ℝ) (h : ∀ v ∈ samples, v ≤ M) :
    ∀ v ∈ clampVariance samples config, v ≤ M := by
  intro v hv
  unfold clampVariance at hv
  dsimp only at hv
  split at hv
  · rename_i hcond
    obtain ⟨hstd, hcap⟩ := hcond
    simp only [List.mem_map] at hv
    obtain ⟨x, hx, hxv⟩ := hv
    have hne : samples ≠ [] := by
      intro he
      subst he
      simp at hx
    have hmean : samples.sum / samples.length ≤ M := sum_div_length_le _ _ hne h
    have hstdpos : (0 : ℝ) <
        Real.sqrt ((samples.map
          (fun b => (b - samples.sum / samples.length) ^ 2)).sum / samples.length) :=
      lt_trans hcap hstd
    have hf0 : 0 < |samples.sum / ↑samples.length| * config.maxStdDevRatio.getD 2.0 /
        Real.sqrt ((samples.map
          (fun b => (b - samples.sum / samples.length) ^ 2)).sum / samples.length) :=
      div_pos hcap hstdpos
    have hf1 : |samples.sum / ↑samples.length| * config.maxStdDevRatio.getD 2.0 /
        Real.sqrt ((samples.map
          (fun b => (b - samples.sum / samples.length) ^ 2)).sum / samples.length) < 1 :=
      (div_lt_one hstdpos).mpr hstd
    have hxm : x ≤ M := h x hx
    rw [← hxv]
    nlinarith [hf0, hf1, hmean, hxm]
  · exact h v hv

/-- Compatibility of the prior-weight pull with a lower clamp: the pull is
either disabled, or contracts (weight at most 1) toward a prior mean that
itself respects the clamp. -/
def priorPullRespectsMin (node : CausalNode) (m : ℝ) : Prop :=
  (mergeBreakers node.circuitBreakers).priorWeight.getD 0 ≤ 0 ∨
  ((mergeBreakers node.circuitBreakers).priorWeight.getD 0 ≤ 1 ∧
    m ≤ expectedValue node.distribution)

/-- Compatibility of the prior-weight pull with an upper clamp. -/
def priorPullRespectsMax (node : CausalNode) (M : ℝ) : Prop :=
  (mergeBreakers node.circuitBreakers).priorWeight.getD 0 ≤ 0 ∨
  ((mergeBreakers node.circuitBreakers).priorWeight.getD 0 ≤ 1 ∧
    expectedValue node.distribution ≤ M)

/-- Circuit breakers enforce the min clamp, provided any max clamp is
consistent and the prior-weight pull respects the clamp. -/
theorem applyCircuitBreakers_lower_bound (node : CausalNode) (samples : List ℝ) (m : ℝ)
    (hmin : (mergeBreakers node.circuitBreakers).minValue = some m)
    (hcons : ∀ Mv, (mergeBreakers node.circuitBreakers).maxValue = some Mv → m ≤ Mv)
    (hpw : priorPullRespectsMin node m) :
    ∀ v ∈ applyCircuitBreakers node samples, m ≤ v := by
  intro v hv
  unfold applyCircuitBreakers at hv
  simp only [List.mem_map] at hv
  obtain ⟨x, _hx, hxv⟩ := hv
  rw [← hxv]
  simp only [jsIsNaN, Bool.false_eq_true, if_false, hmin]
  have hb1 : m ≤ Max.max x m := le_max_right _ _
  rcases hmax : (mergeBreakers node.circuitBreakers).maxValue with _ | Mv
  · simp only [hmax]
    rcases hw : (mergeBreakers node.circuitBreakers).priorWeight with _ | w
    · exact hb1
    · dsimp only
      split
      · rename_i hwpos
        rcases hpw with hple | ⟨hw1, hpm⟩
        · rw [hw] at hple
          simp only [Option.getD_some] at hple
          linarith
        · rw [hw] at hw1
          simp only [Option.getD_some] at hw1
          nlinarith
      · exact hb1
  · simp only [hmax]
    have hb2 : m ≤ Min.min (Max.max x m) Mv := le_min hb1 (hcons Mv hmax)
    rcases hw : (mergeBreakers node.circuitBreakers).priorWeight with _ | w
    · exact hb2
    · dsimp only
      split
      · rename_i hwpos
        rcases hpw with hple | ⟨hw1, hpm⟩
        · rw [hw] at hple
          simp only [Option.getD_some] at hple
          linarith
        · rw [hw] at hw1
          simp only [Option.getD_some] at hw1
          nlinarith
      · exact hb2

/-- Circuit breakers enforce the max clamp (applied last among the clamps),
provided the prior-weight pull respects it. -/
theorem applyCircuitBreakers_upper_bound (node : CausalNode) (samples : List ℝ) (M : ℝ)
    (hmax : (mergeBreakers node.circuitBreakers).maxValue = some M)
    (hpw : priorPullRespectsMax node M) :
    ∀ v ∈ applyCircuitBreakers node samples, v ≤ M := by
  intro v hv
  unfold applyCircuitBreakers at hv
  simp only [List.mem_map] at hv
  obtain ⟨x, _hx, hxv⟩ := hv
  rw [← hxv]
  simp only [jsIsNaN, Bool.false_eq_true, if_false, hmax]
  generalize (match (mergeBreakers node.circuitBreakers).minValue with
    | some m => Max.max x m
    | none => x) = B
  have hb2 : Min.min B M ≤ M := min_le_right _ _
  rcases hw : (mergeBreakers node.circuitBreakers).priorWeight with _ | w
  · exact hb2
  · dsimp only
    split
    · rename_i hwpos
      rcases hpw with hple | ⟨hw1, hpm⟩
      · rw [hw] at hple
        simp only [Option.getD_some] at hple
        linarith
      · rw [hw] at hw1
        simp only [Option.getD_some] at hw1
        nlinarith
    · exact hb2

/-- Any property enforced by the stabilization pipeline of the nodes carrying
a given id holds for that id's stored vector after the loop (non-intervened
ids only). -/
theorem propagateLoop_stabilized_bound (edges : List CausalEdge)
    (nodeMap : String → Option CausalNode) (ivs : String → Option ℝ)
    (n : Nat) (g : Rng) (id : String) (P : ℝ → Prop) (hiv : ivs id = none) :
    ∀ (l : List CausalNode) (samples : NodeSamples) (k : Nat),
      (∀ node ∈ l, node.id = id → ∀ raw v,
        v ∈ clampVariance (applyCircuitBreakers node raw)
          (mergeBreakers node.circuitBreakers) → P v) →
      (∀ s, samples id = some s → ∀ v ∈ s, P v) →
      ∀ s, (propagateLoop edges nodeMap ivs n g l samples k).1 id = some s →
        ∀ v ∈ s, P v := by
  intro l
  induction l with
  | nil =>
    intro samples k _hstab hpre s hs
    exact hpre s hs
  | cons node rest ih =>
    intro samples k hstab hpre s hs
    rcases hivn : ivs node.id with _ | w
    · rcases hraw : (if node.type = "exogenous" then
          sampleFromDistribution node.distribution n g k
        else computeChildSamples node edges samples nodeMap n g k) with ⟨raw, k1⟩
      rw [propagateLoop] at hs
      simp only [hivn, hraw] at hs
      refine ih _ _ (fun nd hnd hndid => hstab nd (List.mem_cons_of_mem _ hnd) hndid)
        ?_ s hs
      intro s' hs' v hv
      by_cases hid : node.id = id
      · rw [setSamples, if_pos hid.symm] at hs'
        injection hs' with hs''
        rw [← hs''] at hv
        exact hstab node (List.mem_cons_self _ _) hid raw v hv
      · rw [setSamples, if_neg (fun hc => hid hc.symm)] at hs'
        exact hpre s' hs' v hv
    · have hid : node.id ≠ id := by
        intro hc
        rw [hc, hiv] at hivn
        exact Option.noConfusion hivn
      rw [propagateLoop] at hs
      simp only [hivn] at hs
      refine ih _ _ (fun nd hnd hndid => hstab nd (List.mem_cons_of_mem _ hnd) hndid)
        ?_ s hs
      intro s' hs' v hv
      rw [setSamples, if_neg (fun hc => hid hc.symm)] at hs'
      exact hpre s' hs' v hv

/-- Claim C5 (amended): for every non-intervened node id, samples in the
final result respect the configured min clamp (provided any max clamp is
consistent with it and the prior-weight pull respects it) and the configured
max clamp (provided the prior-weight pull respects it); in particular the
variance-clamping compression applied after the clamps stays within the
bounds.  The prior-weight provisos are forced by the source, whose pull
toward the prior mean runs after the clamps; with the default configuration
(priorWeight 0) they hold automatically. -/
theorem C5_clamp_bounds (model : CausalModel) (ivs : String → Option ℝ)
    (sampleCount : Nat) (g : Rng) (k : Nat) (id : String) (s : List ℝ)
    (hiv : ivs id = none)
    (hs : (propagateWithSampling model ivs sampleCount g k).samples id = some s) :
    (∀ m, (∀ node ∈ topologicalSort model, node.id = id →
        (mergeBreakers node.circuitBreakers).minValue = some m ∧
        (∀ Mv, (mergeBreakers node.circuitBreakers).maxValue = some Mv → m ≤ Mv) ∧
        priorPullRespectsMin node m) →
      ∀ v ∈ s, m ≤ v) ∧
    (∀ M, (∀ node ∈ topologicalSort model, node.id = id →
        (mergeBreakers node.circuitBreakers).maxValue = some M ∧
        priorPullRespectsMax node M) →
      ∀ v ∈ s, v ≤ M) := by
  constructor
  · intro m hconf
    refine propagateLoop_stabilized_bound model.edges (nodeMapGet model.nodes) ivs
      sampleCount g id (fun v => m ≤ v) hiv (topologicalSort model) emptySamples k
      ?_ ?_ s hs
    · intro node hnode hnodeid raw v hv
      obtain ⟨hmin, hcons, hpw⟩ := hconf node hnode hnodeid
      exact clampVariance_lower_bound _ _ m
        (applyCircuitBreakers_lower_bound node raw m hmin hcons hpw) v hv
    · intro s' hs'
      simp [emptySamples] at hs'
  · intro M hconf
    refine propagateLoop_stabilized_bound model.edges (nodeMapGet model.nodes) ivs
      sampleCount g id (fun v => v ≤ M) hiv (topologicalSort model) emptySamples k
      ?_ ?_ s hs
    · intro node hnode hnodeid raw v hv
      obtain ⟨hmax, hpw⟩ := hconf node hnode hnodeid
      exact clampVariance_upper_bound _ _ M
        (applyCircuitBreakers_upper_bound node raw M hmax hpw) v hv
    · intro s' hs'
      simp [emptySamples] at hs'

/-- Concrete node for the C5 counterexample: min clamp 10, priorWeight 1/2,
prior mean 1 (a constant Bernoulli). -/
noncomputable def cexNodeC5 : CausalNode :=
  ⟨"B", "B", "exogenous", none, .binary (some 1), some ⟨some 10, none, some (1/2), none⟩⟩

/-- Concrete single-node model for the C5 counterexample. -/
noncomputable def cexModelC5 : CausalModel := ⟨"w", [cexNodeC5], []⟩

/-- Second concrete node for the C5 counterexample: inconsistent clamps
(min 10 above max 5). -/
def cexNodeC5b : CausalNode :=
  ⟨"B", "B", "exogenous", none, .binary (some 1), some ⟨some 10, some 5, none, none⟩⟩

/-- Second concrete single-node model for the C5 counterexample. -/
def cexModelC5b : CausalModel := ⟨"w", [cexNodeC5b], []⟩

/-- Counterexample to claim C5 as stated: with a min clamp of 10 the final
sample can still be below 10 — the prior-weight pull (model `cexModelC5`:
final sample 11/2) and an inconsistent max clamp (model `cexModelC5b`:
final sample 5) both run after the min clamp. -/
theorem C5_counterexample :
    (propagateWithSampling cexModelC5 (fun _ => none) 1 (fun _ => 0) 0).samples "B" =
        some [(11/2 : ℝ)] ∧
    (mergeBreakers cexNodeC5.circuitBreakers).minValue = some 10 ∧
    ¬ (10 : ℝ) ≤ 11/2 ∧
    (propagateWithSampling cexModelC5b (fun _ => none) 1 (fun _ => 0) 0).samples "B" =
        some [(5 : ℝ)] ∧
    (mergeBreakers cexNodeC5b.circuitBreakers).minValue = some 10 ∧
    ¬ (10 : ℝ) ≤ 5 := by
  have htopo : topologicalSort cexModelC5 = [cexNodeC5] := rfl
  have htopob : topologicalSort cexModelC5b = [cexNodeC5b] := rfl
  refine ⟨?_, rfl, by norm_num, ?_, rfl, by norm_num⟩
  · show ((propagateLoop cexModelC5.edges (nodeMapGet cexModelC5.nodes) (fun _ => none) 1
      (fun _ => 0) (topologicalSort cexModelC5) emptySamples 0).1 "B") = some [(11/2 : ℝ)]
    rw [htopo]
    norm_num [propagateLoop, sampleFromDistribution, sampleN, applyCircuitBreakers,
      clampVariance, mergeBreakers, DEFAULT_CIRCUIT_BREAKERS, expectedValue, jsIsNaN,
      setSamples, emptySamples, cexNodeC5, cexModelC5, max_def, min_def, listMean,
      Real.sqrt_zero]
  · show ((propagateLoop cexModelC5b.edges (nodeMapGet cexModelC5b.nodes) (fun _ => none) 1
      (fun _ => 0) (topologicalSort cexModelC5b) emptySamples 0).1 "B") = some [(5 : ℝ)]
    rw [htopob]
    norm_num [propagateLoop, sampleFromDistribution, sampleN, applyCircuitBreakers,
      clampVariance, mergeBreakers, DEFAULT_CIRCUIT_BREAKERS, expectedValue, jsIsNaN,
      setSamples, emptySamples, cexNodeC5b, cexModelC5b, max_def, min_def, listMean,
      Real.sqrt_zero]

/-- Concrete node for the C5 witness: min clamp 10, default priorWeight. -/
def witNodeC5 : CausalNode :=
  ⟨"B", "B", "exogenous", none, .binary (some 1), some ⟨some 10, none, none, none⟩⟩

/-- Concrete single-node model for the C5 witness. -/
def witModelC5 : CausalModel := ⟨"w", [witNodeC5], []⟩

/-- Witness for amended claim C5: the clamped sample respects the min clamp. -/
theorem C5_witness : (10 : ℝ) ≤ 10 :=
  (C5_clamp_bounds witModelC5 (fun _ => none) 1 (fun _ => 0) 0 "B" [10] rfl
    (by
      show ((propagateLoop witModelC5.edges (nodeMapGet witModelC5.nodes) (fun _ => none) 1
        (fun _ => 0) (topologicalSort witModelC5) emptySamples 0).1 "B") = some [(10 : ℝ)]
      have htopo : topologicalSort witModelC5 = [witNodeC5] := rfl
      rw [htopo]
      norm_num [propagateLoop, sampleFromDistribution, sampleN, applyCircuitBreakers,
        clampVariance, mergeBreakers, DEFAULT_CIRCUIT_BREAKERS, expectedValue, jsIsNaN,
        setSamples, emptySamples, witNodeC5, witModelC5, max_def, min_def, listMean,
        Real.sqrt_zero])).1 10
    (by
      intro node hnode hid
      have h1 : topologicalSort witModelC5 = [witNodeC5] := rfl
      rw [h1, List.mem_singleton] at hnode
      subst hnode
      refine ⟨rfl, ?_, ?_⟩
      · intro Mv h
        exact Option.noConfusion h
      · left
        norm_num [mergeBreakers, witNodeC5, DEFAULT_CIRCUIT_BREAKERS])
    10 (List.mem_singleton.mpr rfl)

/-! ## Claim C1 -/

/-- Presence in an updated sample store. -/
theorem setSamples_isSome (smp : NodeSamples) (nid id : String) (v : List ℝ) :
    ((setSamples smp nid v) id).isSome ↔ id = nid ∨ (smp id).isSome := by
  rw [setSamples]
  by_cases h : id = nid <;> simp [h]

/-- The loop stores a vector exactly for the processed ids (and whatever was
already stored). -/
theorem propagateLoop_isSome (edges : List CausalEdge)
    (nodeMap : String → Option CausalNode) (ivs : String → Option ℝ)
    (n : Nat) (g : Rng) :
    ∀ (l : List CausalNode) (samples : NodeSamples) (k : Nat) (id : String),
      ((propagateLoop edges nodeMap ivs n g l samples k).1 id).isSome ↔
        id ∈ l.map (fun nd => nd.id) ∨ (samples id).isSome := by
  intro l
  induction l with
  | nil =>
    intro samples k id
    simp [propagateLoop]
  | cons node rest ih =>
    intro samples k id
    rcases hivn : ivs node.id with _ | w
    · rcases hraw : (if node.type = "exogenous" then
          sampleFromDistribution node.distribution n g k
        else computeChildSamples node edges samples nodeMap n g k) with ⟨raw, k1⟩
      rw [propagateLoop]
      simp only [hivn, hraw]
      rw [ih, setSamples_isSome]
      simp only [List.map_cons, List.mem_cons]
      tauto
    · rw [propagateLoop]
      simp only [hivn]
      rw [ih, setSamples_isSome]
      simp only [List.map_cons, List.mem_cons]
      tauto

/-- Claim C1 (amended): `propagateWithSampling` performs no structural check
and never aborts: it returns a normal result whose sample store is populated
exactly at the ids emitted by Kahn's sort.  Nodes on a cycle (or downstream
of an edge naming a missing source) are silently absent; the remaining nodes
are processed normally, i.e. partial results are returned. -/
theorem C1_no_abort_partial_results (model : CausalModel) (ivs : String → Option ℝ)
    (sampleCount : Nat) (g : Rng) (k : Nat) (id : String) :
    ((propagateWithSampling model ivs sampleCount g k).samples id).isSome ↔
      id ∈ (topologicalSort model).map (fun nd => nd.id) := by
  have h := propagateLoop_isSome model.edges (nodeMapGet model.nodes) ivs sampleCount g
    (topologicalSort model) emptySamples k id
  simpa [emptySamples] using h

/-- Cyclic model for the C1 counterexample: a ↔ b plus an isolated node c. -/
def cexModelC1 : CausalModel :=
  ⟨"w",
   [⟨"a", "a", "exogenous", none, .binary (some 1), none⟩,
    ⟨"b", "b", "endogenous", none, .binary (some 1), none⟩,
    ⟨"c", "c", "exogenous", none, .binary (some 1), none⟩],
   [⟨"a", "b", .linear none none none⟩, ⟨"b", "a", .linear none none none⟩]⟩

/-- Counterexample to claim C1: on a model whose edges form the cycle a ↔ b,
`propagateWithSampling` does not abort — it returns a result that contains a
sample vector for the acyclic remainder (partial results) and silently no
entry for the cycle members. -/
theorem C1_counterexample :
    (propagateWithSampling cexModelC1 (fun _ => none) 1 (fun _ => 0) 0).samples "c" =
        some [(1 : ℝ)] ∧
    (propagateWithSampling cexModelC1 (fun _ => none) 1 (fun _ => 0) 0).samples "a" =
        none ∧
    (propagateWithSampling cexModelC1 (fun _ => none) 1 (fun _ => 0) 0).samples "b" =
        none := by
  have htopo : topologicalSort cexModelC1 =
      [⟨"c", "c", "exogenous", none, .binary (some 1), none⟩] := rfl
  refine ⟨?_, rfl, rfl⟩
  show ((propagateLoop cexModelC1.edges (nodeMapGet cexModelC1.nodes) (fun _ => none) 1
    (fun _ => 0) (topologicalSort cexModelC1) emptySamples 0).1 "c") = some [(1 : ℝ)]
  rw [htopo]
  norm_num [propagateLoop, sampleFromDistribution, sampleN, applyCircuitBreakers,
    clampVariance, mergeBreakers, DEFAULT_CIRCUIT_BREAKERS, expectedValue, jsIsNaN,
    setSamples, emptySamples, cexModelC1, max_def, min_def, Real.sqrt_zero]

/-! ## Claim C8 -/

/-- On reals the finiteness filter keeps every sample. -/
theorem filter_jsIsFinite (l : List ℝ) : l.filter (fun s => jsIsFinite s) = l := by
  simp [jsIsFinite]

/-- The head of a sorted list is its minimum. -/
theorem sorted_head_spec : ∀ (l : List ℝ), l.Sorted (· ≤ ·) →
    ∀ a, l.head? = some a → a ∈ l ∧ ∀ v ∈ l, a ≤ v := by
  intro l
  cases l with
  | nil =>
    intro _ a h
    cases h
  | cons x t =>
    intro hs a h
    simp only [List.head?_cons, Option.some_inj] at h
    subst h
    refine ⟨List.mem_cons_self _ _, ?_⟩
    intro v hv
    rcases List.mem_cons.mp hv with hv | hv
    · subst hv
      exact le_refl _
    · exact (List.sorted_cons.mp hs).1 v hv

/-- The last element of a sorted list is its maximum. -/
theorem sorted_getLast_spec : ∀ (l : List ℝ), l.Sorted (· ≤ ·) →
    ∀ a, l.getLast? = some a → a ∈ l ∧ ∀ v ∈ l, v ≤ a := by
  intro l
  induction l with
  | nil =>
    intro _ a h
    cases h
  | cons x t ih =>
    intro hs a h
    cases t with
    | nil =>
      simp only [List.getLast?_singleton, Option.some_inj] at h
      subst h
      simp
    | cons y t2 =>
      rw [List.getLast?_cons_cons] at h
      have hst : (y :: t2).Sorted (· ≤ ·) := (List.sorted_cons.mp hs).2
      obtain ⟨hmem, hbound⟩ := ih hst a h
      refine ⟨List.mem_cons_of_mem _ hmem, ?_⟩
      intro v hv
      rcases List.mem_cons.mp hv with hv | hv
      · subst hv
        exact (List.sorted_cons.mp hs).1 a hmem
      · exact hbound v hv

/-- A nonempty list has a last element. -/
theorem exists_getLast_of_ne_nil (l : List ℝ) (h : l ≠ []) : ∃ a, l.getLast? = some a := by
  cases l with
  | nil => exact absurd rfl h
  | cons x t => exact ⟨(x :: t).getLast (List.cons_ne_nil x t), List.getLast?_eq_getLast _ _⟩

/-- Claim C8 (amended): for a nonempty sample vector, `samplesToKDE` places
its `numPoints + 1` curve points at equally spaced x-values spanning
`[min - pad, max + pad]`, where min and max are the smallest and largest
samples and the padding is `max(2·σ', 1)` with σ' the empirical standard
deviation floored to 1 when it is zero — not `2σ` as claimed. -/
theorem C8_kde_grid (samples : List ℝ) (numPoints : Nat) (hne : samples ≠ [])
    (_hnp : 0 < numPoints) :
    ∃ smin smax : ℝ, smin ∈ samples ∧ (∀ v ∈ samples, smin ≤ v) ∧
      smax ∈ samples ∧ (∀ v ∈ samples, v ≤ smax) ∧
      (samplesToKDE samples numPoints).points.length = numPoints + 1 ∧
      ∀ i, i < numPoints + 1 →
        ((samplesToKDE samples numPoints).points[i]?).map Prod.fst =
          some ((smin - kdePadding samples) + (i : ℝ) *
            ((smax + kdePadding samples - (smin - kdePadding samples)) /
              (numPoints : ℝ))) := by
  have hsortne : samples.insertionSort (· ≤ ·) ≠ [] := by
    intro h
    have hp := List.perm_insertionSort (· ≤ ·) samples
    rw [h] at hp
    exact hne hp.symm.eq_nil
  obtain ⟨smin, hhead⟩ : ∃ a, (samples.insertionSort (· ≤ ·)).head? = some a := by
    cases hs : samples.insertionSort (· ≤ ·) with
    | nil => exact absurd hs hsortne
    | cons x t => exact ⟨x, rfl⟩
  obtain ⟨smax, hlast⟩ := exists_getLast_of_ne_nil _ hsortne
  have hsorted := List.sorted_insertionSort (· ≤ ·) samples
  have hperm := List.perm_insertionSort (· ≤ ·) samples
  obtain ⟨hminmem, hminle⟩ := sorted_head_spec _ hsorted smin hhead
  obtain ⟨hmaxmem, hmaxge⟩ := sorted_getLast_spec _ hsorted smax hlast
  have hminmem' : smin ∈ samples := hperm.mem_iff.mp hminmem
  have hmaxmem' : smax ∈ samples := hperm.mem_iff.mp hmaxmem
  have hminle' : ∀ v ∈ samples, smin ≤ v := fun v hv => hminle v (hperm.mem_iff.mpr hv)
  have hmaxge' : ∀ v ∈ samples, v ≤ smax := fun v hv => hmaxge v (hperm.mem_iff.mpr hv)
  have hie : samples.isEmpty = false := by
    cases samples with
    | nil => exact absurd rfl hne
    | cons x t => rfl
  have hpad : (1 : ℝ) ≤ kdePadding samples := le_max_right _ _
  have hminmax : smin ≤ smax := hminle' smax hmaxmem'
  have hrange : ¬ (smax + kdePadding samples - (smin - kdePadding samples) ≤ 0) := by
    push_neg
    linarith
  refine ⟨smin, smax, hminmem', hminle', hmaxmem', hmaxge', ?_, ?_⟩
  · unfold samplesToKDE
    simp only [hie, Bool.false_eq_true, if_false, filter_jsIsFinite]
    rw [hhead, hlast]
    simp only [Option.getD_some]
    rw [if_neg hrange]
    simp only [List.length_map, List.length_range]
  · intro i hi
    unfold samplesToKDE
    simp only [hie, Bool.false_eq_true, if_false, filter_jsIsFinite]
    rw [hhead, hlast]
    simp only [Option.getD_some]
    rw [if_neg hrange]
    simp only [List.getElem?_map, List.getElem?_range hi, Option.map_some]
    rfl

/-- Witness for amended claim C8 at the one-sample vector [2] with one grid
interval. -/
theorem C8_witness :
    ∃ smin smax : ℝ, smin ∈ [(2 : ℝ)] ∧ (∀ v ∈ [(2 : ℝ)], smin ≤ v) ∧
      smax ∈ [(2 : ℝ)] ∧ (∀ v ∈ [(2 : ℝ)], v ≤ smax) ∧
      (samplesToKDE [(2 : ℝ)] 1).points.length = 1 + 1 ∧
      ∀ i : ℕ, i < 1 + 1 →
        ((samplesToKDE [(2 : ℝ)] 1).points[i]?).map Prod.fst =
          some ((smin - kdePadding [(2 : ℝ)]) + (i : ℝ) *
            ((smax + kdePadding [(2 : ℝ)] - (smin - kdePadding [(2 : ℝ)])) /
              ((1 : ℕ) : ℝ))) :=
  C8_kde_grid [(2 : ℝ)] 1 (by simp) (by norm_num)

/-- Counterexample to claim C8 as stated: the grid does not span
`[min - 2σ, max + 2σ]`.  For [3, 3] (σ = 0, floored to 1) the first x-value
is 1, not 3; for [0, 1/5] (σ = 1/10, padding max(2σ,1) = 1) it is -1,
not -1/5. -/
theorem C8_counterexample :
    ((samplesToKDE [(3 : ℝ), 3] 50).points.head?).map Prod.fst = some (1 : ℝ) ∧
    Real.sqrt (listVariance [(3 : ℝ), 3]) = 0 ∧
    (3 : ℝ) - 2 * 0 ≠ 1 ∧
    ((samplesToKDE [(0 : ℝ), 1/5] 50).points.head?).map Prod.fst = some (-1 : ℝ) ∧
    Real.sqrt (listVariance [(0 : ℝ), 1/5]) = 1/10 ∧
    (0 : ℝ) - 2 * (1/10) ≠ -1 := by
  have hvar1 : listVariance [(3 : ℝ), 3] = 0 := by
    norm_num [listVariance, listMean]
  have hsq1 : Real.sqrt (listVariance [(3 : ℝ), 3]) = 0 := by
    rw [hvar1, Real.sqrt_zero]
  have hstd1 : kdeStdDev [(3 : ℝ), 3] = 1 := by
    rw [kdeStdDev, hsq1]
    simp
  have hpad1 : kdePadding [(3 : ℝ), 3] = 2 := by
    rw [kdePadding, hstd1]
    norm_num [max_def]
  have hsort1 : ([(3 : ℝ), 3]).insertionSort (· ≤ ·) = [3, 3] := by
    norm_num [List.insertionSort, List.orderedInsert]
  have hvar2 : listVariance [(0 : ℝ), 1/5] = 1/100 := by
    norm_num [listVariance, listMean]
  have hsq2 : Real.sqrt (listVariance [(0 : ℝ), 1/5]) = 1/10 := by
    rw [hvar2, show (1/100 : ℝ) = (1/10)^2 by norm_num, Real.sqrt_sq (by norm_num)]
  have hstd2 : kdeStdDev [(0 : ℝ), 1/5] = 1/10 := by
    rw [kdeStdDev, hsq2]
    norm_num
  have hpad2 : kdePadding [(0 : ℝ), 1/5] = 1 := by
    rw [kdePadding, hstd2]
    norm_num [max_def]
  have hsort2 : ([(0 : ℝ), 1/5]).insertionSort (· ≤ ·) = [0, 1/5] := by
    norm_num [List.insertionSort, List.orderedInsert]
  refine ⟨?_, hsq1, by norm_num, ?_, hsq2, by norm_num⟩
  · unfold samplesToKDE
    simp only [filter_jsIsFinite]
    norm_num [hsort1, hpad1]
    rw [show (51 : ℕ) = 50 + 1 from rfl, List.range_succ_eq_map]
    simp
  · unfold samplesToKDE
    simp only [filter_jsIsFinite]
    norm_num [hsort2, hpad2]
    rw [show (51 : ℕ) = 50 + 1 from rfl, List.range_succ_eq_map]
    simp

/-! ## Claim C9 -/

/-- The propagation loop splits over list append. -/
theorem propagateLoop_append (edges : List CausalEdge)
    (nm : String → Option CausalNode) (ivs : String → Option ℝ) (n : Nat) (g : Rng) :
    ∀ (l1 l2 : List CausalNode) (s : NodeSamples) (k : Nat),
      propagateLoop edges nm ivs n g (l1 ++ l2) s k =
        propagateLoop edges nm ivs n g l2
          (propagateLoop edges nm ivs n g l1 s k).1
          (propagateLoop edges nm ivs n g l1 s k).2 := by
  intro l1
  induction l1 with
  | nil => intro l2 s k; rfl
  | cons node rest ih =>
    intro l2 s k
    rcases hivn : ivs node.id with _ | w
    · rcases hraw : (if node.type = "exogenous" then
          sampleFromDistribution node.distribution n g k
        else computeChildSamples node edges s nm n g k) with ⟨raw, k1⟩
      simp only [List.cons_append, propagateLoop, hivn, hraw]
      exact ih l2 _ _
    · simp only [List.cons_append, propagateLoop, hivn]
      exact ih l2 _ _

/-- Two intervention maps agreeing on every processed id drive the loop
identically. -/
theorem propagateLoop_congr_ivs (edges : List CausalEdge)
    (nm : String → Option CausalNode) (n : Nat) (g : Rng)
    (ivs1 ivs2 : String → Option ℝ) :
    ∀ (l : List CausalNode) (s : NodeSamples) (k : Nat),
      (∀ node ∈ l, ivs1 node.id = ivs2 node.id) →
      propagateLoop edges nm ivs1 n g l s k =
        propagateLoop edges nm ivs2 n g l s k := by
  intro l
  induction l with
  | nil => intro s k _; rfl
  | cons node rest ih =>
    intro s k hagree
    have h1 : ivs1 node.id = ivs2 node.id := hagree node (List.mem_cons_self _ _)
    have hrest : ∀ nd ∈ rest, ivs1 nd.id = ivs2 nd.id :=
      fun nd hnd => hagree nd (List.mem_cons_of_mem _ hnd)
    rcases hivn : ivs2 node.id with _ | w
    · have hivn1 : ivs1 node.id = none := h1.trans hivn
      rcases hraw : (if node.type = "exogenous" then
          sampleFromDistribution node.distribution n g k
        else computeChildSamples node edges s nm n g k) with ⟨raw, k1⟩
      simp only [propagateLoop, hivn1, hivn, hraw]
      exact ih _ _ hrest
    · have hivn1 : ivs1 node.id = some w := h1.trans hivn
      simp only [propagateLoop, hivn1, hivn]
      exact ih _ _ hrest

/-- The loop leaves unprocessed ids untouched. -/
theorem propagateLoop_not_mem (edges : List CausalEdge)
    (nm : String → Option CausalNode) (ivs : String → Option ℝ) (n : Nat) (g : Rng) :
    ∀ (l : List CausalNode) (s : NodeSamples) (k : Nat) (id : String),
      id ∉ l.map (fun nd => nd.id) →
      (propagateLoop edges nm ivs n g l s k).1 id = s id := by
  intro l
  induction l with
  | nil => intro s k id _; rfl
  | cons node rest ih =>
    intro s k id hid
    simp only [List.map_cons, List.mem_cons, not_or] at hid
    obtain ⟨hne, hrest⟩ := hid
    rcases hivn : ivs node.id with _ | w
    · rcases hraw : (if node.type = "exogenous" then
          sampleFromDistribution node.distribution n g k
        else computeChildSamples node edges s nm n g k) with ⟨raw, k1⟩
      simp only [propagateLoop, hivn, hraw]
      rw [ih _ _ _ (by simpa using hrest), setSamples, if_neg hne]
    · simp only [propagateLoop, hivn]
      rw [ih _ _ _ (by simpa using hrest), setSamples, if_neg hne]

/-- Claim C9 (amended): intervening on a node C leaves the sample vector of a
node A unchanged (same RNG stream) when A can be processed before C — i.e.
the topological order splits into a prefix without C containing every
occurrence of A.  This is the correct strengthening of the claim: an
intervened node consumes no RNG draws, so nodes processed after C read a
shifted stream and generally change even when they are not downstream of C
(see the counterexample). -/
theorem C9_upstream_unchanged (model : CausalModel) (C : String) (v : ℝ)
    (A : String) (g : Rng) (k : Nat) (sampleCount : Nat)
    (l1 l2 : List CausalNode)
    (hsplit : topologicalSort model = l1 ++ l2)
    (hC : C ∉ l1.map (fun nd => nd.id))
    (hA : A ∉ l2.map (fun nd => nd.id)) :
    (propagateWithSampling model (fun x => if x = C then some v else none)
        sampleCount g k).samples A =
      (propagateWithSampling model (fun _ => none) sampleCount g k).samples A := by
  show (propagateCore model (fun x => if x = C then some v else none) sampleCount g k).1 A =
    (propagateCore model (fun _ => none) sampleCount g k).1 A
  unfold propagateCore
  rw [hsplit]
  rw [propagateLoop_append, propagateLoop_append]
  have hpre : propagateLoop model.edges (nodeMapGet model.nodes)
      (fun x => if x = C then some v else none) sampleCount g l1 emptySamples k =
    propagateLoop model.edges (nodeMapGet model.nodes)
      (fun _ => none) sampleCount g l1 emptySamples k := by
    refine propagateLoop_congr_ivs _ _ _ _ _ _ l1 emptySamples k ?_
    intro node hnode
    have hne : node.id ≠ C := by
      intro hc
      exact hC (by rw [← hc]; exact List.mem_map_of_mem _ hnode)
    simp [hne]
  rw [hpre]
  rw [propagateLoop_not_mem _ _ _ _ _ l2 _ _ A hA,
    propagateLoop_not_mem _ _ _ _ _ l2 _ _ A hA]

/-- Model for the C9 counterexample: two independent exogenous coins, C
processed first. -/
noncomputable def cexModelC9 : CausalModel :=
  ⟨"w",
   [⟨"C", "C", "exogenous", none, .binary (some (1/2)), none⟩,
    ⟨"A", "A", "exogenous", none, .binary (some (1/2)), none⟩],
   []⟩

/-- RNG stream for the C9 counterexample: 9/10 then 1/10 forever. -/
noncomputable def cexRngC9 : Rng := fun k => if k = 0 then 9/10 else 1/10

/-- Counterexample to claim C9 as stated: node A is not downstream of C, yet
intervening on C changes A's sample vector (and its empirical mean) under
the same RNG stream, because the intervened C no longer consumes draws and
A's draw shifts from 1/10 to 9/10. -/
theorem C9_counterexample :
    (propagateWithSampling cexModelC9 (fun _ => none) 1 cexRngC9 0).samples "A" =
        some [(1 : ℝ)] ∧
    (propagateWithSampling cexModelC9 (fun x => if x = "C" then some 7 else none)
        1 cexRngC9 0).samples "A" = some [(0 : ℝ)] ∧
    isDescendant cexModelC9 "C" "A" = false ∧
    listMean [(1 : ℝ)] ≠ listMean [(0 : ℝ)] := by
  have htopo : topologicalSort cexModelC9 =
      [⟨"C", "C", "exogenous", none, .binary (some (1/2)), none⟩,
       ⟨"A", "A", "exogenous", none, .binary (some (1/2)), none⟩] := rfl
  refine ⟨?_, ?_, rfl, by norm_num [listMean]⟩
  · show ((propagateLoop cexModelC9.edges (nodeMapGet cexModelC9.nodes) (fun _ => none) 1
      cexRngC9 (topologicalSort cexModelC9) emptySamples 0).1 "A") = some [(1 : ℝ)]
    rw [htopo]
    norm_num [propagateLoop, sampleFromDistribution, sampleN, applyCircuitBreakers,
      clampVariance, mergeBreakers, DEFAULT_CIRCUIT_BREAKERS, expectedValue, jsIsNaN,
      setSamples, emptySamples, cexModelC9, cexRngC9, max_def, min_def, Real.sqrt_zero]
  · show ((propagateLoop cexModelC9.edges (nodeMapGet cexModelC9.nodes)
      (fun x => if x = "C" then some 7 else none) 1
      cexRngC9 (topologicalSort cexModelC9) emptySamples 0).1 "A") = some [(0 : ℝ)]
    rw [htopo]
    norm_num [propagateLoop, sampleFromDistribution, sampleN, applyCircuitBreakers,
      clampVariance, mergeBreakers, DEFAULT_CIRCUIT_BREAKERS, expectedValue, jsIsNaN,
      setSamples, emptySamples, cexModelC9, cexRngC9, max_def, min_def, Real.sqrt_zero]
    rfl

/-- Model for the C9 witness: the same two coins with A processed first. -/
noncomputable def witModelC9 : CausalModel :=
  ⟨"w",
   [⟨"A", "A", "exogenous", none, .binary (some (1/2)), none⟩,
    ⟨"C", "C", "exogenous", none, .binary (some (1/2)), none⟩],
   []⟩

/-- Witness for amended claim C9: A precedes C in the topological order, so
its samples agree between the intervened and baseline runs. -/
theorem C9_witness :
    (propagateWithSampling witModelC9 (fun x => if x = "C" then some 7 else none)
        1 cexRngC9 0).samples "A" =
      (propagateWithSampling witModelC9 (fun _ => none) 1 cexRngC9 0).samples "A" :=
  C9_upstream_unchanged witModelC9 "C" 7 "A" cexRngC9 0 1
    [⟨"A", "A", "exogenous", none, .binary (some (1/2)), none⟩]
    [⟨"C", "C", "exogenous", none, .binary (some (1/2)), none⟩]
    rfl (by decide) (by decide)

/-! ## Claim C7 -/

/-- The scan's running minimum never increases. -/
theorem scan_min_mono (t : List String) (iid : String) :
    ∀ (impacts : List NodeImpact) (st : Option ℝ × Option String) (s : ℝ),
      st.1 = some s →
      ∃ f, (impacts.foldl (scanStep t iid) st).1 = some f ∧ f ≤ s := by
  intro impacts
  induction impacts with
  | nil =>
    intro st s h
    exact ⟨s, h, le_refl s⟩
  | cons x rest ih =>
    intro st s h
    rw [List.foldl_cons]
    by_cases h1 : x.nodeId = iid
    · rw [scanStep, if_pos h1]
      exact ih st s h
    · by_cases h2 : t.contains x.nodeId
      · rw [scanStep, if_neg h1, if_pos h2]
        exact ih st s h
      · rw [scanStep, if_neg h1, if_neg h2]
        rw [h]
        dsimp only
        by_cases h3 : |x.pctChange| < s
        · rw [if_pos h3]
          obtain ⟨f, hf, hle⟩ :=
            ih (some |x.pctChange|, some x.nodeLabel) |x.pctChange| rfl
          exact ⟨f, hf, le_trans hle (le_of_lt h3)⟩
        · rw [if_neg h3]
          exact ih st s h

/-- Every eligible impact bounds the scan's final minimum from above. -/
theorem scan_min_le_eligible (t : List String) (iid : String) :
    ∀ (impacts : List NodeImpact) (st : Option ℝ × Option String) (jj : NodeImpact),
      jj ∈ impacts → jj.nodeId ≠ iid → t.contains jj.nodeId = false →
      ∃ f, (impacts.foldl (scanStep t iid) st).1 = some f ∧ f ≤ |jj.pctChange| := by
  intro impacts
  induction impacts with
  | nil =>
    intro st jj hjj
    simp at hjj
  | cons x rest ih =>
    intro st jj hjj hne hterm
    rw [List.foldl_cons]
    rcases List.mem_cons.mp hjj with hjj | hjj
    · subst hjj
      rw [scanStep, if_neg hne,
        if_neg (show ¬(t.contains jj.nodeId = true) from fun hc => by
          rw [hterm] at hc; cases hc)]
      rcases hst : st.1 with _ | s
      · exact scan_min_mono t iid rest (some |jj.pctChange|, some jj.nodeLabel)
          |jj.pctChange| rfl
      · dsimp only
        by_cases h3 : |jj.pctChange| < s
        · rw [if_pos h3]
          exact scan_min_mono t iid rest (some |jj.pctChange|, some jj.nodeLabel)
            |jj.pctChange| rfl
        · rw [if_neg h3]
          obtain ⟨f, hf, hle⟩ := scan_min_mono t iid rest st s hst
          exact ⟨f, hf, le_trans hle (not_lt.mp h3)⟩
    · exact ih _ jj hjj hne hterm

/-- Whatever minimum the scan reports is witnessed by an eligible impact (or
was already claimed by the start state, tracked by the parameter C). -/
theorem scan_witness (t : List String) (iid : String) :
    ∀ (impacts : List NodeImpact) (st : Option ℝ × Option String)
      (C : ℝ → String → Prop)
      (_hst : ∀ sm, st.1 = some sm → ∃ lbl, st.2 = some lbl ∧ C sm lbl)
      (sm : ℝ), (impacts.foldl (scanStep t iid) st).1 = some sm →
      ∃ lbl, (impacts.foldl (scanStep t iid) st).2 = some lbl ∧
        (C sm lbl ∨ ∃ ii ∈ impacts, ii.nodeId ≠ iid ∧ t.contains ii.nodeId = false ∧
          |ii.pctChange| = sm ∧ ii.nodeLabel = lbl) := by
  intro impacts
  induction impacts with
  | nil =>
    intro st C hst sm h
    obtain ⟨lbl, hlbl, hC⟩ := hst sm h
    exact ⟨lbl, hlbl, Or.inl hC⟩
  | cons x rest ih =>
    intro st C hst sm h
    rw [List.foldl_cons] at h ⊢
    have hstep : ∀ (st' : Option ℝ × Option String),
        scanStep t iid st x = st' →
        (∀ sm', st'.1 = some sm' → ∃ lbl, st'.2 = some lbl ∧
          (C sm' lbl ∨ (x.nodeId ≠ iid ∧ t.contains x.nodeId = false ∧
            |x.pctChange| = sm' ∧ x.nodeLabel = lbl))) := by
      intro st' hst'
      by_cases h1 : x.nodeId = iid
      · rw [scanStep, if_pos h1] at hst'
        subst hst'
        intro sm' hsm'
        obtain ⟨lbl, hlbl, hC⟩ := hst sm' hsm'
        exact ⟨lbl, hlbl, Or.inl hC⟩
      · by_cases h2 : t.contains x.nodeId
        · rw [scanStep, if_neg h1, if_pos h2] at hst'
          subst hst'
          intro sm' hsm'
          obtain ⟨lbl, hlbl, hC⟩ := hst sm' hsm'
          exact ⟨lbl, hlbl, Or.inl hC⟩
        · rw [scanStep, if_neg h1, if_neg h2] at hst'
          rcases hst1 : st.1 with _ | s
          · rw [hst1] at hst'
            dsimp only at hst'
            subst hst'
            intro sm' hsm'
            simp only [Option.some_inj] at hsm'
            exact ⟨x.nodeLabel, rfl,
              Or.inr ⟨h1, Bool.eq_false_iff.mpr (fun hc => h2 hc), hsm', rfl⟩⟩
          · rw [hst1] at hst'
            dsimp only at hst'
            by_cases h3 : |x.pctChange| < s
            · rw [if_pos h3] at hst'
              subst hst'
              intro sm' hsm'
              simp only [Option.some_inj] at hsm'
              exact ⟨x.nodeLabel, rfl,
                Or.inr ⟨h1, Bool.eq_false_iff.mpr (fun hc => h2 hc), hsm', rfl⟩⟩
            · rw [if_neg h3] at hst'
              subst hst'
              intro sm' hsm'
              obtain ⟨lbl, hlbl, hC⟩ := hst sm' hsm'
              exact ⟨lbl, hlbl, Or.inl hC⟩
    obtain ⟨lbl, hlbl, hres⟩ := ih (scanStep t iid st x)
      (fun sm' lbl => C sm' lbl ∨ (x.nodeId ≠ iid ∧ t.contains x.nodeId = false ∧
        |x.pctChange| = sm' ∧ x.nodeLabel = lbl))
      (hstep _ rfl) sm h
    refine ⟨lbl, hlbl, ?_⟩
    rcases hres with (hC | hx) | ⟨ii, hii, hrest⟩
    · exact Or.inl hC
    · exact Or.inr ⟨x, List.mem_cons_self _ _, hx⟩
    · exact Or.inr ⟨ii, List.mem_cons_of_mem _ hii, hrest⟩

/-- Inner accumulation of `computeBottlenecks` as a filter-map. -/
theorem bottleneck_inner_fold (t : List String) (exoLabel : String)
    (li : InterventionResult) :
    ∀ (impacts : List NodeImpact) (acc : List BottleneckWarning),
      impacts.foldl (fun acc impact =>
        if t.contains impact.nodeId then
          if |impact.pctChange| < 10 then
            acc ++ [mkBottleneckWarning t exoLabel li impact]
          else acc
        else acc) acc =
      acc ++ (impacts.filter (fun impact =>
        t.contains impact.nodeId && decide (|impact.pctChange| < 10))).map
          (fun impact => mkBottleneckWarning t exoLabel li impact) := by
  intro impacts
  induction impacts with
  | nil => intro acc; simp
  | cons x rest ih =>
    intro acc
    rw [List.foldl_cons, List.filter_cons]
    by_cases h1 : t.contains x.nodeId = true
    · by_cases h2 : |x.pctChange| < 10
      · have hp : (t.contains x.nodeId && decide (|x.pctChange| < 10)) = true := by
          rw [Bool.and_eq_true]
          exact ⟨h1, decide_eq_true h2⟩
        rw [if_pos h1, if_pos h2, if_pos hp, List.map_cons, ih]
        simp
      · have hp : ¬((t.contains x.nodeId && decide (|x.pctChange| < 10)) = true) := by
          simp [h2]
        rw [if_pos h1, if_neg h2, if_neg hp]
        exact ih acc
    · have hp : ¬((t.contains x.nodeId && decide (|x.pctChange| < 10)) = true) := by
        intro hc
        rw [Bool.and_eq_true] at hc
        exact h1 hc.1
      rw [if_neg h1, if_neg hp]
      exact ih acc

/-- `computeBottlenecks` as a flatMap of filter-maps. -/
theorem computeBottlenecks_eq_flatMap (t : List String) :
    ∀ (results : List SensitivityResult),
      computeBottlenecks t results = results.flatMap (fun result =>
        match result.interventions.find? (fun i => i.multiplier = 1.5) with
        | none => []
        | some li =>
          (li.impacts.filter (fun impact =>
            t.contains impact.nodeId && decide (|impact.pctChange| < 10))).map
              (fun impact =>
                mkBottleneckWarning t result.exogenousNodeLabel li impact)) := by
  have hgen : ∀ (results : List SensitivityResult) (acc : List BottleneckWarning),
      results.foldl (fun acc result =>
        match result.interventions.find? (fun i => i.multiplier = 1.5) with
        | none => acc
        | some largeIntervention =>
          largeIntervention.impacts.foldl (fun acc impact =>
            if t.contains impact.nodeId then
              if |impact.pctChange| < 10 then
                acc ++ [mkBottleneckWarning t result.exogenousNodeLabel
                  largeIntervention impact]
              else acc
            else acc) acc) acc =
        acc ++ results.flatMap (fun result =>
          match result.interventions.find? (fun i => i.multiplier = 1.5) with
          | none => []
          | some li =>
            (li.impacts.filter (fun impact =>
              t.contains impact.nodeId && decide (|impact.pctChange| < 10))).map
                (fun impact =>
                  mkBottleneckWarning t result.exogenousNodeLabel li impact)) := by
    intro results
    induction results with
    | nil => intro acc; simp
    | cons r rest ih =>
      intro acc
      rw [List.foldl_cons, List.flatMap_cons]
      rcases hf : r.interventions.find? (fun i => i.multiplier = 1.5) with _ | li
      · simp only [hf]
        rw [ih]
        simp
      · simp only [hf]
        rw [bottleneck_inner_fold, ih, List.append_assoc]
  intro results
  rw [computeBottlenecks, hgen]
  simp

/-- Claim C7 (amended): in the multiplier-1.5 run of each exogenous node, a
BottleneckWarning is emitted for exactly those impacted (reachable) nodes
whose DECLARED type is 'terminal' — not the nodes without out-edges — with
absolute pct change below 10; and the scanned suspected bottleneck is a
reachable impact of declared type ≠ 'terminal' attaining the smallest
absolute pct change (recorded by `mkBottleneckWarning` only when that
smallest value is below 5). -/
theorem C7_bottleneck_rule :
    (∀ (model : CausalModel) (sampleCount : Nat) (g : Rng) (k : Nat),
      (runSensitivityAnalysis model sampleCount g k).summary.bottlenecks =
        computeBottlenecks
          ((model.nodes.filter (fun nd => nd.type = "terminal")).map (fun nd => nd.id))
          (runSensitivityAnalysis model sampleCount g k).results) ∧
    (∀ (t : List String) (results : List SensitivityResult),
      computeBottlenecks t results = results.flatMap (fun result =>
        match result.interventions.find? (fun i => i.multiplier = 1.5) with
        | none => []
        | some li =>
          (li.impacts.filter (fun impact =>
            t.contains impact.nodeId && decide (|impact.pctChange| < 10))).map
              (fun impact =>
                mkBottleneckWarning t result.exogenousNodeLabel li impact))) ∧
    (∀ (t : List String) (iid : String) (impacts : List NodeImpact) (sm : ℝ),
      (scanBottleneck t iid impacts).1 = some sm →
        (∃ ii ∈ impacts, ii.nodeId ≠ iid ∧ t.contains ii.nodeId = false ∧
          |ii.pctChange| = sm ∧ (scanBottleneck t iid impacts).2 = some ii.nodeLabel) ∧
        ∀ jj ∈ impacts, jj.nodeId ≠ iid → t.contains jj.nodeId = false →
          sm ≤ |jj.pctChange|) := by
  refine ⟨?_, computeBottlenecks_eq_flatMap, ?_⟩
  · intro model sampleCount g k
    unfold runSensitivityAnalysis
    rcases h1 : propagateCore model (fun _ => none) sampleCount g k with ⟨bs, k1⟩
    simp only [h1]
  · intro t iid impacts sm hsm
    constructor
    · obtain ⟨lbl, hlbl, hres⟩ := scan_witness t iid impacts (none, none)
        (fun _ _ => False) (fun sm' h => Option.noConfusion h) sm hsm
      rcases hres with hF | ⟨ii, hii, hne, hterm, habs, hlbleq⟩
      · exact absurd hF not_false
      · exact ⟨ii, hii, hne, hterm, habs, by rw [scanBottleneck, hlbl, hlbleq]⟩
    · intro jj hjj hne hterm
      obtain ⟨f, hf, hle⟩ := scan_min_le_eligible t iid impacts (none, none) jj hjj hne hterm
      have : f = sm := by
        rw [scanBottleneck] at hsm
        rw [hf] at hsm
        exact Option.some_inj.mp hsm
      rwa [← this]

/-- Model for the C7 counterexample: X → Y with a zero-coefficient linear
edge.  Y has no out-edges (the claim's structural notion of terminal) but its
declared type is 'endogenous', so the code never flags it. -/
def cexModelC7 : CausalModel :=
  ⟨"w",
   [⟨"X", "X", "exogenous", none, .binary (some 1), none⟩,
    ⟨"Y", "Y", "endogenous", none, .binary (some 1), none⟩],
   [⟨"X", "Y", .linear (some 0) none none⟩]⟩

/-- With no node declared 'terminal', the bottleneck pass emits nothing. -/
theorem computeBottlenecks_no_terminals :
    ∀ results : List SensitivityResult, computeBottlenecks [] results = [] := by
  intro results
  rw [computeBottlenecks_eq_flatMap]
  have hpt : ∀ r : SensitivityResult,
      (match r.interventions.find? (fun i => i.multiplier = 1.5) with
        | none => ([] : List BottleneckWarning)
        | some li =>
          (li.impacts.filter (fun impact =>
            ([] : List String).contains impact.nodeId &&
              decide (|impact.pctChange| < 10))).map
              (fun impact =>
                mkBottleneckWarning [] r.exogenousNodeLabel li impact)) = [] := by
    intro r
    rcases hf : r.interventions.find? (fun i => i.multiplier = 1.5) with _ | li
    · rw [hf]
    · rw [hf]
      dsimp only
      have hfilter : li.impacts.filter (fun impact =>
          ([] : List String).contains impact.nodeId &&
            decide (|impact.pctChange| < 10)) = [] := by
        induction li.impacts with
        | nil => rfl
        | cons x rest ih => simp [List.filter_cons, ih]
      rw [hfilter]
      rfl
  induction results with
  | nil => rfl
  | cons r rest ih =>
    rw [List.flatMap_cons, hpt r]
    simpa using ih

/-- Counterexample to claim C7 as stated: in `cexModelC7`, Y has no
out-edges and is downstream of X with a 0% change in the multiplier-1.5 run
(far below 10%), so the claim demands a BottleneckWarning — yet the analysis
emits none, because bottleneck detection keys on the declared type
'terminal', which no node of this model carries. -/
theorem C7_counterexample :
    (runSensitivityAnalysis cexModelC7 1 (fun _ => 0) 0).summary.bottlenecks = [] ∧
    (findLeafNodes cexModelC7).map (fun nd => nd.id) = ["Y"] ∧
    findDownstreamNodes cexModelC7 "X" = ["Y"] ∧
    (∃ r ∈ (runSensitivityAnalysis cexModelC7 1 (fun _ => 0) 0).results,
      ∃ li ∈ r.interventions, li.multiplier = 1.5 ∧
        ∃ impact ∈ li.impacts, impact.nodeId = "Y" ∧ |impact.pctChange| < 10) := by
  have hproj : (runSensitivityAnalysis cexModelC7 1 (fun _ => 0) 0).summary.bottlenecks =
      computeBottlenecks []
        (runSensitivityAnalysis cexModelC7 1 (fun _ => 0) 0).results := by
    unfold runSensitivityAnalysis
    rcases h1 : propagateCore cexModelC7 (fun _ => none) 1 (fun _ => 0) 0 with ⟨bs, k1⟩
    simp only [h1]
    rfl
  have htopo : topologicalSort cexModelC7 =
      [⟨"X", "X", "exogenous", none, .binary (some 1), none⟩,
       ⟨"Y", "Y", "endogenous", none, .binary (some 1), none⟩] := rfl
  have hdown : findDownstreamNodes cexModelC7 "X" = ["Y"] := rfl
  have hexo : findExogenousNodes cexModelC7 =
      [⟨"X", "X", "exogenous", none, .binary (some 1), none⟩] := rfl
  have hEV : expectedValue (Distribution.binary (some 1)) = 1 := by
    norm_num [expectedValue]
  have hbase : propagateCore cexModelC7 (fun _ => none) 1 (fun _ => 0) 0 =
      (setSamples (setSamples emptySamples "X" [1]) "Y" [1], 2) := by
    unfold propagateCore
    rw [htopo]
    norm_num [propagateLoop, computeChildSamples, sampleFromDistribution, sampleN,
      applyCircuitBreakers, clampVariance, mergeBreakers, DEFAULT_CIRCUIT_BREAKERS,
      expectedValue, jsIsNaN, jsIsFinite, setSamples, emptySamples, nodeMapGet,
      applyEffectToSample, applyLinearEffect, cexModelC7, max_def, min_def,
      Real.sqrt_zero, abs_one]
  have hrun : ∀ (v : ℝ) (k : Nat),
      propagateCore cexModelC7 (fun id => if id = "X" then some v else none) 1
          (fun _ => 0) k =
        (setSamples (setSamples emptySamples "X" [v]) "Y" [1], k + 1) := by
    intro v k
    unfold propagateCore
    rw [htopo]
    norm_num [propagateLoop, computeChildSamples, sampleFromDistribution, sampleN,
      applyCircuitBreakers, clampVariance, mergeBreakers, DEFAULT_CIRCUIT_BREAKERS,
      expectedValue, jsIsNaN, jsIsFinite, setSamples, emptySamples, nodeMapGet,
      applyEffectToSample, applyLinearEffect, cexModelC7, max_def, min_def,
      Real.sqrt_zero, abs_one]
    simp
  have hmapY : nodeMapGet cexModelC7.nodes "Y" =
      some ⟨"Y", "Y", "endogenous", none, .binary (some 1), none⟩ := rfl
  have hmapX : nodeMapGet cexModelC7.nodes "X" =
      some ⟨"X", "X", "exogenous", none, .binary (some 1), none⟩ := rfl
  have hres : (runSensitivityAnalysis cexModelC7 1 (fun _ => 0) 0).results =
      [{ exogenousNodeId := "X", exogenousNodeLabel := "X", units := none, priorMean := 1,
         interventions := [
           { level := "50% decrease", multiplier := 0.5, value := 0.5,
             impacts := [⟨"Y", "Y", 1, 1, 0, 0, none⟩] },
           { level := "25% decrease", multiplier := 0.75, value := 0.75,
             impacts := [⟨"Y", "Y", 1, 1, 0, 0, none⟩] },
           { level := "25% increase", multiplier := 1.25, value := 1.25,
             impacts := [⟨"Y", "Y", 1, 1, 0, 0, none⟩] },
           { level := "50% increase", multiplier := 1.5, value := 1.5,
             impacts := [⟨"Y", "Y", 1, 1, 0, 0, none⟩] }] }] := by
    unfold runSensitivityAnalysis
    rw [hexo, hbase]
    norm_num [buildResults, runInterventionLevels, interventionLevels, hEV, hdown, hrun,
      computeImpacts, baselineMeansOf, setSamples, emptySamples, hmapY, hmapX,
      listMean]
  refine ⟨?_, rfl, hdown, ?_⟩
  · rw [hproj, computeBottlenecks_no_terminals]
  · rw [hres]
    refine ⟨_, List.mem_singleton.mpr rfl, ?_⟩
    refine ⟨⟨"50% increase", 1.5, 1.5, [⟨"Y", "Y", 1, 1, 0, 0, none⟩]⟩,
      by simp, rfl, ?_⟩
    exact ⟨⟨"Y", "Y", 1, 1, 0, 0, none⟩, by simp, rfl, by norm_num⟩

/-- Terminal-typed impact for the C7 witness. -/
noncomputable def witImpTC7 : NodeImpact := ⟨"T", "T", 1, 1, 0, 0, none⟩

/-- Intermediate impact for the C7 witness (pct change 2). -/
noncomputable def witImpMC7 : NodeImpact := ⟨"M", "M", 1, 1, 0, 2, none⟩

/-- Multiplier-1.5 run for the C7 witness. -/
noncomputable def witLiC7 : InterventionResult :=
  { level := "50% increase", multiplier := 1.5, value := 1.5,
    impacts := [witImpMC7, witImpTC7] }

/-- Synthetic detailed results for the C7 witness. -/
noncomputable def witResultsC7 : List SensitivityResult :=
  [{ exogenousNodeId := "X", exogenousNodeLabel := "X", units := none, priorMean := 1,
     interventions := [witLiC7] }]

/-- Witness for amended claim C7: one type-'terminal' impact below 10% yields
exactly one warning, whose suspected bottleneck is the non-'terminal' impact
with the smallest |pct| (2 < 5, hence recorded). -/
theorem C7_witness :
    computeBottlenecks ["T"] witResultsC7 =
      [⟨"X", "T", "50% increase", 0, 0, none, some "M"⟩] := by
  rw [C7_bottleneck_rule.2.1 ["T"] witResultsC7]
  have hfind : witLiC7.impacts = [witImpMC7, witImpTC7] := rfl
  have h15 : ([witLiC7].find? (fun i => i.multiplier = 1.5)) = some witLiC7 :=
    List.find?_cons_of_pos _ (by simp [witLiC7])
  simp only [witResultsC7, List.flatMap_cons, List.flatMap_nil, h15]
  norm_num [witLiC7, witImpMC7, witImpTC7, List.filter_cons, mkBottleneckWarning,
    scanBottleneck, scanStep]
  simp
  norm_num

/-! ## Claim C6: effect kernels over the IEEE special values

Claim C6 is specifically about NaN and ±∞ inputs, which the real-number
embedding cannot express.  `FVal` models a JS number as a finite real, NaN,
+∞ or -∞, with the arithmetic and math-library operations the effect
kernels use, following IEEE-754 double semantics (signed zeros are
identified with 0, and finite arithmetic never overflows — neither artifact
is exercised by the kernels' guards).  The kernels below repeat the source
expressions over `FVal`; model parameters (effect fields, prior means)
remain finite reals. -/

/-- A JS number: finite real, NaN, or a signed infinity. -/
inductive FVal
  | fin (x : ℝ)
  | nan
  | inf
  | ninf

/-- JS `isNaN`. -/
def FVal.isNaNb : FVal → Bool
  | nan => true
  | _ => false

/-- JS `isFinite`. -/
def FVal.isFiniteb : FVal → Bool
  | fin _ => true
  | _ => false

/-- IEEE negation. -/
def fvNeg : FVal → FVal
  | .nan => .nan
  | .inf => .ninf
  | .ninf => .inf
  | .fin x => .fin (-x)

/-- IEEE addition (∞ + -∞ = NaN). -/
noncomputable def fvAdd : FVal → FVal → FVal
  | .nan, _ => .nan
  | _, .nan => .nan
  | .inf, .ninf => .nan
  | .ninf, .inf => .nan
  | .inf, _ => .inf
  | _, .inf => .inf
  | .ninf, _ => .ninf
  | _, .ninf => .ninf
  | .fin x, .fin y => .fin (x + y)

/-- IEEE subtraction. -/
noncomputable def fvSub (a b : FVal) : FVal := fvAdd a (fvNeg b)

/-- IEEE multiplication (0 · ∞ = NaN; signs propagate). -/
noncomputable def fvMul : FVal → FVal → FVal
  | .nan, _ => .nan
  | _, .nan => .nan
  | .inf, .inf => .inf
  | .inf, .ninf => .ninf
  | .ninf, .inf => .ninf
  | .ninf, .ninf => .inf
  | .inf, .fin y => if 0 < y then .inf else if y < 0 then .ninf else .nan
  | .fin x, .inf => if 0 < x then .inf else if x < 0 then .ninf else .nan
  | .ninf, .fin y => if 0 < y then .ninf else if y < 0 then .inf else .nan
  | .fin x, .ninf => if 0 < x then .ninf else if x < 0 then .inf else .nan
  | .fin x, .fin y => .fin (x * y)

/-- IEEE division (∞/∞ = NaN, x/0 = ±∞, 0/0 = NaN, x/∞ = 0). -/
noncomputable def fvDiv : FVal → FVal → FVal
  | .nan, _ => .nan
  | _, .nan => .nan
  | .inf, .inf => .nan
  | .inf, .ninf => .nan
  | .ninf, .inf => .nan
  | .ninf, .ninf => .nan
  | .inf, .fin y => if 0 ≤ y then .inf else .ninf
  | .ninf, .fin y => if 0 ≤ y then .ninf else .inf
  | .fin _, .inf => .fin 0
  | .fin _, .ninf => .fin 0
  | .fin x, .fin y =>
    if y = 0 then (if 0 < x then .inf else if x < 0 then .ninf else .nan)
    else .fin (x / y)

/-- JS `<` (false whenever an operand is NaN). -/
noncomputable def fvLt : FVal → FVal → Bool
  | .nan, _ => false
  | _, .nan => false
  | .inf, _ => false
  | .ninf, .ninf => false
  | .ninf, _ => true
  | .fin _, .inf => true
  | .fin _, .ninf => false
  | .fin x, .fin y => decide (x < y)

/-- JS `<=` (false whenever an operand is NaN). -/
noncomputable def fvLe : FVal → FVal → Bool
  | .nan, _ => false
  | _, .nan => false
  | .ninf, _ => true
  | .inf, .inf => true
  | .inf, _ => false
  | .fin _, .inf => true
  | .fin _, .ninf => false
  | .fin x, .fin y => decide (x ≤ y)

/-- JS `Math.max` (NaN-propagating). -/
noncomputable def fvMax (a b : FVal) : FVal :=
  match a, b with
  | .nan, _ => .nan
  | _, .nan => .nan
  | x, y => if fvLt x y then y else x

/-- JS `Math.min` (NaN-propagating). -/
noncomputable def fvMin (a b : FVal) : FVal :=
  match a, b with
  | .nan, _ => .nan
  | _, .nan => .nan
  | x, y => if fvLt y x then y else x

/-- JS `Math.exp`. -/
noncomputable def fvExp : FVal → FVal
  | .nan => .nan
  | .inf => .inf
  | .ninf => .fin 0
  | .fin x => .fin (Real.exp x)

/-- JS `Math.log` (log 0 = -∞, log of a negative is NaN). -/
noncomputable def fvLog : FVal → FVal
  | .nan => .nan
  | .inf => .inf
  | .ninf => .nan
  | .fin x => if x = 0 then .ninf else if x < 0 then .nan else .fin (Real.log x)

/-- JS `Math.log2`. -/
noncomputable def fvLog2 : FVal → FVal
  | .nan => .nan
  | .inf => .inf
  | .ninf => .nan
  | .fin x => if x = 0 then .ninf else if x < 0 then .nan else .fin (Real.logb 2 x)

/-- JS `Math.tanh`. -/
noncomputable def fvTanh : FVal → FVal
  | .nan => .nan
  | .inf => .fin 1
  | .ninf => .fin (-1)
  | .fin x => .fin (Real.tanh x)

/-- JS `Math.abs`. -/
noncomputable def fvAbs : FVal → FVal
  | .nan => .nan
  | .inf => .inf
  | .ninf => .inf
  | .fin x => .fin |x|

/-- JS `Math.sqrt` (NaN on negative arguments). -/
noncomputable def fvSqrt : FVal → FVal
  | .nan => .nan
  | .inf => .inf
  | .ninf => .nan
  | .fin x => if x < 0 then .nan else .fin (Real.sqrt x)

/-- JS `Math.pow` with a finite base (the kernels only raise the finite
`factor` parameter): exponent ±0 gives 1; infinite exponents compare |base|
with 1; a negative base accepts only integer exponents. -/
noncomputable def fvPowFin (x : ℝ) : FVal → FVal
  | .nan => .nan
  | .inf => if |x| = 1 then .nan else if 1 < |x| then .inf else .fin 0
  | .ninf => if |x| = 1 then .nan else if 1 < |x| then .fin 0 else .inf
  | .fin d =>
    if d = 0 then .fin 1
    else if 0 < x then .fin (x ^ d)
    else if x = 0 then (if 0 < d then .fin 0 else .inf)
    else
      @dite FVal (∃ n : ℤ, (n : ℝ) = d) (Classical.propDecidable _)
        (fun h => .fin (x ^ h.choose)) (fun _ => .nan)

/-- `applyLinearEffect` over `FVal`. -/
noncomputable def applyLinearEffectF (baseValue : FVal)
    (coefficient _intercept saturation : Option ℝ)
    (parentValue : FVal) (parentPriorMean : ℝ) : FVal :=
  let coef := coefficient.getD 0.3
  if |parentPriorMean| < 0.001 then
    let delta := fvMul (fvMul (.fin coef) parentValue) (.fin 0.01)
    fvAdd baseValue delta
  else
    let parentDeviation :=
      fvDiv (fvSub parentValue (.fin parentPriorMean)) (.fin parentPriorMean)
    let effectiveDeviation :=
      match saturation with
      | some s =>
        if 0 < s then fvMul (.fin s) (fvTanh (fvDiv parentDeviation (.fin s)))
        else parentDeviation
      | none => parentDeviation
    let multiplier := fvAdd (.fin 1) (fvMul (.fin coef) effectiveDeviation)
    let clampedMultiplier := fvMin (fvMax multiplier (.fin 0.1)) (.fin 10)
    fvMul baseValue clampedMultiplier

/-- `applyMultiplicativeEffect` over `FVal`. -/
noncomputable def applyMultiplicativeEffectF (baseValue : FVal)
    (factor baseline : Option ℝ) (parentValue : FVal) : FVal :=
  let f := factor.getD 1.5
  let b := baseline.getD 1
  if fvLe parentValue (.fin 0) || decide (b ≤ 0) then baseValue
  else
    let doublings := fvLog2 (fvDiv parentValue (.fin b))
    let rawMultiplier := fvPowFin f doublings
    let dampedMultiplier := fvMin (fvMax rawMultiplier (.fin 0.1)) (.fin 10)
    fvMul baseValue dampedMultiplier

/-- `applyThresholdEffect` over `FVal`. -/
noncomputable def applyThresholdEffectF (baseValue : FVal)
    (cutoff below above smoothness : Option ℝ)
    (parentValue : FVal) (parentPriorMean : ℝ) : FVal :=
  let c := cutoff.getD parentPriorMean
  let bl := below.getD 0.1
  let ab := above.getD 0.5
  let k := smoothness.getD 2
  let weight :=
    fvDiv (.fin 1) (fvAdd (.fin 1) (fvExp (fvMul (.fin (-k)) (fvSub parentValue (.fin c)))))
  let effectiveCoefficient :=
    fvAdd (fvMul (.fin bl) (fvSub (.fin 1) weight)) (fvMul (.fin ab) weight)
  let parentDeviation :=
    fvDiv (fvSub parentValue (.fin c)) (.fin |if c = 0 then 1 else c|)
  let multiplier := fvAdd (.fin 1) (fvMul effectiveCoefficient parentDeviation)
  let clampedMultiplier := fvMin (fvMax multiplier (.fin 0.1)) (.fin 10)
  fvMul baseValue clampedMultiplier

/-- `applyLogisticEffect` over `FVal`. -/
noncomputable def applyLogisticEffectF (baseProbability : FVal)
    (coefficient threshold : Option ℝ) (parentValue : FVal) : FVal :=
  let coef := coefficient.getD 0.1
  let thr := threshold.getD 0
  let clampedP := fvMin (fvMax baseProbability (.fin 0.001)) (.fin 0.999)
  let logOdds := fvLog (fvDiv clampedP (fvSub (.fin 1) clampedP))
  let newLogOdds := fvAdd logOdds (fvMul (.fin coef) (fvSub parentValue (.fin thr)))
  let clampedLogOdds := fvMin (fvMax newLogOdds (.fin (-10))) (.fin 10)
  fvDiv (.fin 1) (fvAdd (.fin 1) (fvExp (fvNeg clampedLogOdds)))

/-- `applyEffectToSample` over `FVal`: the dispatcher guards only against
NaN inputs, then falls back to the base value only when the computed result
is non-finite. -/
noncomputable def applyEffectToSampleF (baseValue : FVal) (effect : EffectFunction)
    (parentValue : FVal) (parentPriorMean : ℝ) : FVal :=
  if baseValue.isNaNb || parentValue.isNaNb then baseValue
  else
    let result :=
      match effect with
      | .linear c i s => applyLinearEffectF baseValue c i s parentValue parentPriorMean
      | .multiplicative f b => applyMultiplicativeEffectF baseValue f b parentValue
      | .threshold c bl ab s =>
        applyThresholdEffectF baseValue c bl ab s parentValue parentPriorMean
      | .logistic c t => applyLogisticEffectF baseValue c t parentValue
    if result.isFiniteb then result else baseValue

/-- Counterexample to claim C6: a +∞ parent value is NOT passed through —
the linear kernel runs, its multiplier saturates at the clamp ceiling 10,
and the finite result 10 · base is returned instead of base. -/
theorem C6_counterexample :
    applyEffectToSampleF (.fin 1) (.linear (some 1) none none) FVal.inf 1 = .fin 10 ∧
    FVal.fin 10 ≠ FVal.fin 1 := by
  constructor
  · unfold applyEffectToSampleF applyLinearEffectF
    norm_num [FVal.isNaNb, FVal.isFiniteb, fvSub, fvNeg, fvAdd, fvDiv, fvMul,
      fvMin, fvMax, fvLt, abs_one]
  · intro h
    injection h with h
    norm_num at h

/-- Claim C6 (amended): the dispatcher's input guard covers only NaN — if
`base_value` or `parent_value` is NaN, every effect variant returns
`base_value` unchanged.  Infinite inputs run the kernel and fall back to
`base_value` only when the computed result is itself non-finite (see the
counterexample, where a +∞ parent yields 10 · base instead). -/
theorem C6_nan_passthrough (baseValue : FVal) (effect : EffectFunction)
    (parentValue : FVal) (parentPriorMean : ℝ)
    (h : baseValue = FVal.nan ∨ parentValue = FVal.nan) :
    applyEffectToSampleF baseValue effect parentValue parentPriorMean = baseValue := by
  rcases h with h | h <;> subst h <;>
    simp [applyEffectToSampleF, FVal.isNaNb]

/-- Witness for amended claim C6 at a concrete NaN input. -/
theorem C6_witness :
    applyEffectToSampleF FVal.nan (.linear none none none) (.fin 0) 0 = FVal.nan :=
  C6_nan_passthrough FVal.nan (.linear none none none) (.fin 0) 0 (Or.inl rfl)

/-! ## The stabilization stage over the IEEE special values (claim C2)

Claim C2's no-NaN/±∞ conjunct concerns values the real-number embedding
cannot inhabit, so the stabilization stage — the only stage of the pipeline
that could remove a non-finite sample — is repeated over `FVal`, faithful
to `applyCircuitBreakers` and `clampVariance` in src/lib/inference.ts
(model parameters and the prior mean remain finite reals, as in the ℝ
embedding). -/

/-- `applyCircuitBreakers(node, samples)` over `FVal`: per sample — NaN
replacement by the prior mean, min clamp, max clamp, then the optional pull
toward the prior mean.  An infinite sample is not NaN, so it passes the
replacement untouched. -/
noncomputable def applyCircuitBreakersF (node : CausalNode) (samples : List FVal) :
    List FVal :=
  let config := mergeBreakers node.circuitBreakers
  let priorMean := expectedValue node.distribution
  samples.map (fun value =>
    let b0 := if value.isNaNb then FVal.fin priorMean else value
    let b1 := match config.minValue with
      | some m => fvMax b0 (.fin m)
      | none => b0
    let b2 := match config.maxValue with
      | some m => fvMin b1 (.fin m)
      | none => b1
    match config.priorWeight with
    | some w =>
      if 0 < w then fvAdd (.fin priorMean) (fvMul (fvSub b2 (.fin priorMean)) (.fin (1 - w)))
      else b2
    | none => b2)

/-- `clampVariance(samples, config)` over `FVal`.  With an infinite sample
the empirical variance is NaN, both guard comparisons are false, and the
samples are returned unchanged. -/
noncomputable def clampVarianceF (samples : List FVal) (config : CircuitBreakers) :
    List FVal :=
  let n := samples.length
  let mean := fvDiv (samples.foldl fvAdd (.fin 0)) (.fin n)
  let variance :=
    fvDiv (samples.foldl (fun a b => fvAdd a (fvMul (fvSub b mean) (fvSub b mean))) (.fin 0))
      (.fin n)
  let stdDev := fvSqrt variance
  let maxStdDevRatio := config.maxStdDevRatio.getD 2.0
  let maxStdDev := fvMul (fvAbs mean) (.fin maxStdDevRatio)
  if fvLt maxStdDev stdDev && fvLt (.fin 0) maxStdDev then
    let compressionFactor := fvDiv maxStdDev stdDev
    samples.map (fun s => fvAdd mean (fvMul (fvSub s mean) compressionFactor))
  else samples

/-- Counterexample to claim C2: the result can contain a ±∞ entry.  On a
node with the default circuit breakers, a +∞ sample passes both
stabilization stages unchanged — `applyCircuitBreakers` replaces only NaN
and the clamps are absent, and `clampVariance`'s guard compares against a
NaN standard deviation, which is false — so the non-finite value reaches
the stored vector. -/
theorem C2_counterexample :
    applyCircuitBreakersF witNodeC2 [FVal.inf] = [FVal.inf] ∧
    clampVarianceF [FVal.inf] (mergeBreakers witNodeC2.circuitBreakers) = [FVal.inf] ∧
    FVal.isFiniteb FVal.inf = false := by
  refine ⟨?_, ?_, rfl⟩
  · norm_num [applyCircuitBreakersF, mergeBreakers, DEFAULT_CIRCUIT_BREAKERS, witNodeC2,
      FVal.isNaNb]
  · norm_num [clampVarianceF, mergeBreakers, DEFAULT_CIRCUIT_BREAKERS, witNodeC2,
      fvAdd, fvSub, fvNeg, fvMul, fvDiv, fvAbs, fvSqrt, fvLt]

end WhatIf
